import Mathlib

/-!
Spectral scan utility (`util_spectral_scan.c`)

A shallow embedding of `main` and `setup_sx1272` of
`util_spectral_scan/src/util_spectral_scan.c`, and the properties of the scan
control loop, the PLL register computation and the histogram reducer.

Modelling conventions

* The register transport (`lgw_fpga_*`, `lgw_sx1272_*`, declared in the
  `loragw_fpga_*.h` headers) is a parameter: a record of transition functions
  over an arbitrary state type. Every call returns its `int` return code; a read
  also returns the content of its out-parameter after the call.
* Every transport call is recorded, in program order, as an `Event`.
* `wait_ms` only lets time pass and is not modelled.
* `uint8_t`, `uint16_t`, `uint32_t`, `uint64_t` values are naturals reduced
  modulo `2^8`, `2^16`, `2^32`, `2^64` where the C code stores them.
* The `float` table `rssi_thresh` is the table of the exact fractions
  `0.1, 0.3, 0.5, 0.8, 1`, and the comparison against
  `rssi_thresh[k]*rssi_pts` is exact rational arithmetic.
-/

namespace SpectralScan

/-! ## Constants -/

def RSSI_RANGE : Nat := 256
def RSSI_OFFSET : Int := -135
def MAX_FREQ : Nat := 1000000000
def MIN_FREQ : Nat := 800000000
def MIN_STEP_FREQ : Nat := 5000
def EXIT_SUCCESS : Int := 0
def EXIT_FAILURE : Int := 1

/-- Success code of the register layer. The header that defines it is not part
of the sources; `main` itself tests the same accumulated codes against the
literal `0` (lines 181 and 273), which is the value taken here. -/
def LGW_REG_SUCCESS : Int := 0

/-- The FPGA registers named in `main` (the header gives them numbers, which
are not needed). -/
inductive FpgaReg
  | SOFT_RESET
  | FPGA_CTRL
  | HISTO_TEMPO
  | HISTO_NB_READ
  | FPGA_STATUS
  | HISTO_RAM_ADDR
  | HISTO_RAM_DATA
  deriving DecidableEq, Repr

/-- One call of the register transport. -/
inductive Op
  | fpga_connect
  | fpga_disconnect
  | fpga_reg_w (reg : FpgaReg) (val : Int)
  | fpga_reg_r (reg : FpgaReg)
  | fpga_reg_rb (reg : FpgaReg) (size : Nat)
  | sx1272_reg_w (addr : Nat) (data : Nat)
  | sx1272_reg_r (addr : Nat)
  deriving DecidableEq, Repr

/-- A transport call together with what it answered: the return code and, for
a register read, the value left in the out-parameter (0 otherwise). -/
structure Event where
  op : Op
  code : Int
  val : Nat
  deriving DecidableEq, Repr

/-- The fixed console messages of the program. -/
inductive Msg
  | start_scan
  | err_connect
  | err_configure_fpga
  | err_log_file
  | writing_to_file
  | scanning (start stop step nb : Int)
  | err_setup_failed
  | err_disconnect
  | info_disconnected
  | exiting
  | err_version_read
  | err_version
  | err_configure_sx1272
  | err_rx_continuous
  deriving DecidableEq, Repr

/-- What the program prints on the console, one item per `printf`:
a fixed message, the frequency that opens a summary line
(`printf("%d", freq)`), a threshold token (`printf("  %d%%<%4d", ...)` for
threshold index `k` at bin `i`), or the newline that closes a summary line. -/
inductive Print
  | text (m : Msg)
  | freq (f : Int)
  | token (k i : Nat)
  | newline
  deriving DecidableEq, Repr

/-- The register transport: every function takes the transport state and
returns its answer and the next state. -/
structure Transport (σ : Type) where
  lgw_fpga_connect : σ → Int × σ
  lgw_fpga_disconnect : σ → Int × σ
  lgw_fpga_reg_w : FpgaReg → Int → σ → Int × σ
  lgw_fpga_reg_r : FpgaReg → σ → (Int × Nat) × σ
  lgw_fpga_reg_rb : FpgaReg → Nat → σ → (Int × List Nat) × σ
  lgw_sx1272_reg_w : Nat → Nat → σ → Int × σ
  lgw_sx1272_reg_r : Nat → σ → (Int × Nat) × σ

/-- The running context: transport state, the calls made so far and the
console output so far. -/
structure Ctx (σ : Type) where
  st : σ
  events : List Event
  console : List Print

variable {σ : Type}

def Ctx.print (c : Ctx σ) (p : Print) : Ctx σ :=
  { c with console := c.console ++ [p] }

/-- The call `lgw_sx1272_reg_w(addr, data)`; `data` is a `uint8_t`. -/
def sx_w (T : Transport σ) (addr data : Nat) (c : Ctx σ) : Int × Ctx σ :=
  let r := T.lgw_sx1272_reg_w addr (data % 256) c.st
  (r.1, { c with st := r.2, events := c.events ++ [⟨Op.sx1272_reg_w addr (data % 256), r.1, 0⟩] })

/-- The call `lgw_sx1272_reg_r(addr, &reg_val)` with `uint8_t reg_val`. -/
def sx_r (T : Transport σ) (addr : Nat) (c : Ctx σ) : (Int × Nat) × Ctx σ :=
  let r := T.lgw_sx1272_reg_r addr c.st
  ((r.1.1, r.1.2 % 256),
    { c with st := r.2, events := c.events ++ [⟨Op.sx1272_reg_r addr, r.1.1, r.1.2 % 256⟩] })

/-- The call `lgw_fpga_reg_w(reg, val)`. -/
def fpga_w (T : Transport σ) (reg : FpgaReg) (val : Int) (c : Ctx σ) : Int × Ctx σ :=
  let r := T.lgw_fpga_reg_w reg val c.st
  (r.1, { c with st := r.2, events := c.events ++ [⟨Op.fpga_reg_w reg val, r.1, 0⟩] })

/-- The call `lgw_fpga_reg_r(reg, &reg_val)` with `int32_t reg_val`, kept as
its 32-bit pattern. -/
def fpga_r (T : Transport σ) (reg : FpgaReg) (c : Ctx σ) : (Int × Nat) × Ctx σ :=
  let r := T.lgw_fpga_reg_r reg c.st
  ((r.1.1, r.1.2 % 4294967296),
    { c with st := r.2,
             events := c.events ++ [⟨Op.fpga_reg_r reg, r.1.1, r.1.2 % 4294967296⟩] })

/-- The call `lgw_fpga_reg_rb(reg, read_burst, size)`: the answer is the return
code and the content of `read_burst` after the call. -/
def fpga_rb (T : Transport σ) (reg : FpgaReg) (size : Nat) (c : Ctx σ) :
    (Int × List Nat) × Ctx σ :=
  let r := T.lgw_fpga_reg_rb reg size c.st
  (r.1, { c with st := r.2, events := c.events ++ [⟨Op.fpga_reg_rb reg size, r.1.1, 0⟩] })

/-! ## `setup_sx1272` -/

/-- The PLL register value `((uint64_t)freq << 19) / (uint64_t)32000000`. -/
def freq_reg (freq : Nat) : Nat :=
  ((freq <<< 19) % 18446744073709551616) / 32000000

/-- The statement `x |= lgw_sx1272_reg_w(addr, data)`. -/
def sx_w_or (T : Transport σ) (addr data : Nat) (xc : Int × Ctx σ) : Int × Ctx σ :=
  let r := sx_w T addr data xc.2
  (Int.lor xc.1 r.1, r.2)

/-- The function `int setup_sx1272( uint32_t freq )` (lines 289-355). -/
def setup_sx1272 (T : Transport σ) (freq : Nat) (c : Ctx σ) : Int × Ctx σ :=
  let bw := 0
  let LowZin := 1
  let sf := 7
  let AgcAuto := 1
  let LnaGain := 1
  let TrimRxCrFo := 0
  let LnaBoost := 3
  let AdcBwAuto := 0
  let AdcBw := 7
  let AdcLowPwr := 0
  let AdcTrim := 6
  let AdcTest := 0
  let r := sx_r T 0x42 c
  if r.1.1 ≠ LGW_REG_SUCCESS then
    (EXIT_FAILURE, r.2.print (.text .err_version_read))
  else if r.1.2 ≠ 0x22 then
    (EXIT_FAILURE, r.2.print (.text .err_version))
  else
    /- Set in LoRa mode -/
    let xc := sx_w T 0x01 0 r.2
    let xc := sx_w_or T 0x01 (0 ||| (1 <<< 7)) xc
    let xc := sx_w_or T 0x01 (1 ||| (1 <<< 7)) xc
    /- Set PLL freq -/
    let fr := freq_reg freq
    let xc := sx_w_or T 6 ((fr >>> 16) &&& 0xFF) xc
    let xc := sx_w_or T 7 ((fr >>> 8) &&& 0xFF) xc
    let xc := sx_w_or T 8 (fr &&& 0xFF) xc
    /- Config -/
    let xc := sx_w_or T 0x1D (bw <<< 6) xc
    let xc := sx_w_or T 0x50 LowZin xc
    let xc := sx_w_or T 0x1E ((sf <<< 4) ||| (AgcAuto <<< 2)) xc
    let xc := sx_w_or T 0x0C (LnaBoost ||| (TrimRxCrFo <<< 3) ||| (LnaGain <<< 5)) xc
    let xc := sx_w_or T 0x68 (AdcBw ||| (AdcBwAuto <<< 3)) xc
    let xc := sx_w_or T 0x69 (AdcTest ||| (AdcTrim <<< 4) ||| (AdcLowPwr <<< 7)) xc
    if xc.1 ≠ LGW_REG_SUCCESS then
      (EXIT_FAILURE, xc.2.print (.text .err_configure_sx1272))
    else
      /- Set in Rx continuous mode -/
      let w := sx_w T 0x01 (5 ||| (1 <<< 7)) xc.2
      let rd := sx_r T 0x01 w.2
      let x := Int.lor w.1 rd.1.1
      if rd.1.2 ≠ (5 ||| (1 <<< 7)) ∨ x ≠ LGW_REG_SUCCESS then
        (EXIT_FAILURE, rd.2.print (.text .err_rx_continuous))
      else
        (EXIT_SUCCESS, rd.2)

/-! ## The histogram reducer (lines 247-262 of `main`) -/

/-- The table `float rssi_thresh[] = {0.1,0.3,0.5,0.8,1}`, as exact fractions. -/
def rssi_thresh : List ℚ := [1/10, 3/10, 1/2, 4/5, 1]

/-- The value of the expression `rssi_thresh[k]` at bin `i`. The table has five
entries and the code does not bound `k`: for `k ≥ 5` the read leaves the array,
and its value is whatever lies there, `beyond i k`, about which nothing is
assumed. -/
def thresh_read (beyond : Nat → Nat → ℚ) (i k : Nat) : ℚ :=
  match rssi_thresh.get? k with
  | some t => t
  | none => beyond i k

/-- The byte `read_burst[n]`, an `uint8_t`. -/
def byte_at (read_burst : List Nat) (n : Nat) : Nat :=
  read_burst.getD n 0 % 256

/-- The variables of the reducer loop, with what it has written so far:
`row` the fields of the CSV row, `out` the console tokens, and `idx` the
indices at which `rssi_thresh` has been read, one per bin. -/
structure Reducer where
  rssi_cumu : Nat
  k : Nat
  row : List Int
  out : List Print
  idx : List Nat
  deriving DecidableEq, Repr

/-- The count of bin `i` (line 252):
`(uint16_t)read_burst[2*i] | ((uint16_t)read_burst[2*i+1] << 8)`. -/
def rssi_histo (read_burst : List Nat) (i : Nat) : Nat :=
  (byte_at read_burst (2*i) ||| (byte_at read_burst (2*i+1) <<< 8)) % 65536

/-- The body of `for( i = 0; i < RSSI_RANGE; i++ )` (lines 252-259). -/
def reduce_bin (beyond : Nat → Nat → ℚ) (rssi_pts : Nat) (read_burst : List Nat)
    (r : Reducer) (i : Nat) : Reducer :=
  let histo := rssi_histo read_burst i
  let row := r.row ++ [(i : Int) + RSSI_OFFSET, (histo : Int)]
  let rssi_cumu := (r.rssi_cumu + histo) % 65536
  if (rssi_cumu : ℚ) > thresh_read beyond i r.k * (rssi_pts : ℚ) then
    { rssi_cumu := rssi_cumu, k := r.k + 1, row := row,
      out := r.out ++ [Print.token r.k i], idx := r.idx ++ [r.k] }
  else
    { rssi_cumu := rssi_cumu, k := r.k, row := row, out := r.out, idx := r.idx ++ [r.k] }

/-- The value of an `uint32_t` printed with `%d`. -/
def toInt32 (v : Nat) : Int :=
  if v % 4294967296 < 2147483648 then ((v % 4294967296 : Nat) : Int)
  else ((v % 4294967296 : Nat) : Int) - 4294967296

/-- The reducer state on entry of the loop (lines 247-249): the row holds the
frequency, `rssi_cumu = 0`, `k = 0`. -/
def reduce_init (freq : Nat) : Reducer :=
  { rssi_cumu := 0, k := 0, row := [toInt32 freq], out := [], idx := [] }

/-- The reducer after the first `n` bins. -/
def reduce_upto (beyond : Nat → Nat → ℚ) (rssi_pts : Nat) (read_burst : List Nat)
    (freq : Nat) (n : Nat) : Reducer :=
  (List.range n).foldl (reduce_bin beyond rssi_pts read_burst) (reduce_init freq)

/-- The whole reducer loop for one frequency: all `RSSI_RANGE` bins. -/
def reduce (beyond : Nat → Nat → ℚ) (rssi_pts : Nat) (read_burst : List Nat)
    (freq : Nat) : Reducer :=
  reduce_upto beyond rssi_pts read_burst freq RSSI_RANGE

/-- The threshold tokens of a console output, as pairs (threshold index, bin). -/
def tokens : List Print → List (Nat × Nat)
  | [] => []
  | Print.token k i :: ps => (k, i) :: tokens ps
  | _ :: ps => tokens ps

/-- The two numbers a token shows: `(uint16_t)(rssi_thresh[k]*100)` and
`i+RSSI_OFFSET`, for a threshold index inside the table. -/
def token_fields (k i : Nat) : Option (Int × Int) :=
  match rssi_thresh.get? k with
  | some t => some (⌊t * 100⌋ % 65536, (i : Int) + RSSI_OFFSET)
  | none => none

/-! ## `main` after option parsing (lines 177-284) -/

/-- The application parameters of `main` once the options are parsed; every
field holds a value of its C type, `uint32_t` for the three frequencies and
`uint16_t` for `rssi_pts` and `rssi_rate_div`. -/
structure Params where
  start_freq : Nat
  stop_freq : Nat
  step_freq : Nat
  rssi_pts : Nat
  rssi_rate_div : Nat
  deriving DecidableEq, Repr

/-- What the run depends on besides the transport: whether `fopen` succeeds,
the number of status polls after which the model gives up on one
acquisition, and the memory beyond `rssi_thresh` at step `j`, bin `i`,
index `k`. -/
structure Env where
  fopen_ok : Bool
  fuel : Nat
  beyond : Nat → Nat → Nat → ℚ

/-- The `-f` case of the option parser (lines 117-130), from the three numbers
`sscanf` has read, the `double`s taken as exact rationals: `none` when the
argument is refused, otherwise `(start_freq, step_freq, stop_freq)` in Hz. -/
def parse_f (arg_lf : ℚ × ℚ × ℚ) : Option (Nat × Nat × Nat) :=
  if arg_lf.1 < (MIN_FREQ : ℚ) / 1000000 ∨ arg_lf.1 > (MAX_FREQ : ℚ) / 1000000 ∨
      arg_lf.2.1 < (MIN_STEP_FREQ : ℚ) / 1000000 ∨
      arg_lf.2.2 < (MIN_FREQ : ℚ) / 1000000 ∨ arg_lf.2.2 > (MAX_FREQ : ℚ) / 1000000 then
    none
  else
    some (⌊arg_lf.1 * 1000000 + 1/2⌋.toNat % 4294967296,
          ⌊arg_lf.2.1 * 1000000 + 1/2⌋.toNat % 4294967296,
          ⌊arg_lf.2.2 * 1000000 + 1/2⌋.toNat % 4294967296)

/-- Subtraction of `uint32_t` values. -/
def sub32 (a b : Nat) : Nat :=
  (a % 4294967296 + 4294967296 - b % 4294967296) % 4294967296

/-- The number of steps
`freq_nb = (int)( (stop_freq - start_freq) / step_freq ) + 1` (line 211).
The option parser never leaves `step_freq = 0`. -/
def freq_nb (p : Params) : Int :=
  toInt32 (sub32 p.stop_freq p.start_freq / p.step_freq) + 1

/-- The frequency of step `j`: `freq = start_freq + j * step_freq` (line 218),
in `uint32_t`. -/
def freq_at (p : Params) (j : Nat) : Nat :=
  (p.start_freq + (j * p.step_freq) % 4294967296) % 4294967296

/-- The call `lgw_fpga_connect()`. -/
def fpga_connect (T : Transport σ) (c : Ctx σ) : Int × Ctx σ :=
  let r := T.lgw_fpga_connect c.st
  (r.1, { c with st := r.2, events := c.events ++ [⟨Op.fpga_connect, r.1, 0⟩] })

/-- The call `lgw_fpga_disconnect()`. -/
def fpga_disconnect (T : Transport σ) (c : Ctx σ) : Int × Ctx σ :=
  let r := T.lgw_fpga_disconnect c.st
  (r.1, { c with st := r.2, events := c.events ++ [⟨Op.fpga_disconnect, r.1, 0⟩] })

/-- The statement `x |= lgw_fpga_reg_w(reg, val)`. -/
def fpga_w_or (T : Transport σ) (reg : FpgaReg) (val : Int) (xc : Int × Ctx σ) : Int × Ctx σ :=
  let r := fpga_w T reg val xc.2
  (Int.lor xc.1 r.1, r.2)

/-- The `do ... while( (reg_val & 0x0F) != 8 )` loop (lines 233-238); `none`
when the status has not shown completion within `fuel` polls. -/
def poll (T : Transport σ) : Nat → Ctx σ → Option (Ctx σ)
  | 0, _ => none
  | fuel + 1, c =>
    let r := fpga_r T FpgaReg.FPGA_STATUS c
    if (r.1.2 &&& 0x0F) ≠ 8 then poll T fuel r.2 else some r.2

/-- The variables of the main loop: the accumulated code `x`, the context and
the rows of the log file. -/
structure Scan (σ : Type) where
  x : Int
  ctx : Ctx σ
  log : List (List Int)

/-- How one pass of the main loop ends. -/
inductive StepOut (σ : Type)
  | hang
  | abort (s : Scan σ)
  | next (s : Scan σ)

/-- The body of the main loop for step `j` (lines 217-262). -/
def scan_step (T : Transport σ) (p : Params) (env : Env) (j : Nat) (s : Scan σ) : StepOut σ :=
  /- Current frequency -/
  let freq := freq_at p j
  let c := s.ctx.print (Print.freq (toInt32 freq))
  /- Set SX1272 -/
  let r := setup_sx1272 T freq c
  let x := Int.lor s.x r.1
  if x ≠ 0 then
    StepOut.abort { x := x, ctx := r.2.print (.text .err_setup_failed), log := s.log }
  else
    /- Start histogram -/
    let w := fpga_w T FpgaReg.FPGA_CTRL 1 r.2
    /- Wait until rssi_pts have been processed -/
    match poll T env.fuel w.2 with
    | none => StepOut.hang
    | some c =>
      /- Stop histogram -/
      let w := fpga_w T FpgaReg.FPGA_CTRL 0 c
      /- Read histogram -/
      let w := fpga_w T FpgaReg.HISTO_RAM_ADDR 0 w.2
      let rb := fpga_rb T FpgaReg.HISTO_RAM_DATA (RSSI_RANGE*2) w.2
      let red := reduce (env.beyond j) p.rssi_pts rb.1.2 freq
      StepOut.next
        { x := x,
          ctx := { rb.2 with console := rb.2.console ++ red.out ++ [Print.newline] },
          log := s.log ++ [red.row] }

/-- The main loop `for( j = 0; j < freq_nb; j++ )` with `n` passes left.
`some (true, s)`: the loop ran to its end; `some (false, s)`: a pass returned
`EXIT_FAILURE`; `none`: a poll loop did not end. -/
def scan_loop (T : Transport σ) (p : Params) (env : Env) : Nat → Nat → Scan σ → Option (Bool × Scan σ)
  | 0, _, s => some (true, s)
  | n + 1, j, s =>
    match scan_step T p env j s with
    | StepOut.hang => none
    | StepOut.abort s1 => some (false, s1)
    | StepOut.next s1 => scan_loop T p env n (j + 1) s1

/-- The outcome of a run: the exit code, the context (transport calls and
console) and the log file, `none` when it was never created. -/
structure Result (σ : Type) where
  ret : Int
  ctx : Ctx σ
  log : Option (List (List Int))

/-- The function `main` from the start message on (lines 177-284), on
parameters `p`, from transport state `s0`. -/
def main (T : Transport σ) (p : Params) (env : Env) (s0 : σ) : Option (Result σ) :=
  /- FPGA settings -/
  let input_sync_edge := 0
  let output_sync_edge := 0
  let filt_on := 1
  /- Start message -/
  let c : Ctx σ := { st := s0, events := [], console := [Print.text Msg.start_scan] }
  let r := fpga_connect T c
  if r.1 ≠ 0 then
    some { ret := EXIT_FAILURE, ctx := r.2.print (.text .err_connect), log := none }
  else
    /- Configure FPGA -/
    let xc := fpga_w T FpgaReg.SOFT_RESET 1 r.2
    let xc := fpga_w_or T FpgaReg.SOFT_RESET 0 xc
    let xc := fpga_w_or T FpgaReg.FPGA_CTRL
      (((filt_on <<< 4) ||| (input_sync_edge <<< 2) ||| (output_sync_edge <<< 3) ||| (1 <<< 1) : Nat) : Int) xc
    let xc := fpga_w_or T FpgaReg.FPGA_CTRL
      (((filt_on <<< 4) ||| (input_sync_edge <<< 2) ||| (output_sync_edge <<< 3) : Nat) : Int) xc
    let xc := fpga_w_or T FpgaReg.HISTO_TEMPO (p.rssi_rate_div : Int) xc
    let xc := fpga_w_or T FpgaReg.HISTO_NB_READ (p.rssi_pts : Int) xc
    if xc.1 ≠ LGW_REG_SUCCESS then
      some { ret := EXIT_FAILURE, ctx := xc.2.print (.text .err_configure_fpga), log := none }
    else if env.fopen_ok = false then
      /- create log file -/
      some { ret := EXIT_FAILURE, ctx := xc.2.print (.text .err_log_file), log := none }
    else
      let c := xc.2.print (.text .writing_to_file)
      /- Number of frequency steps -/
      let nb := freq_nb p
      let c := c.print (.text (.scanning (toInt32 p.start_freq) (toInt32 p.stop_freq)
        (toInt32 p.step_freq) nb))
      /- Main loop -/
      match scan_loop T p env nb.toNat 0 { x := xc.1, ctx := c, log := [] } with
      | none => none
      | some (false, s) => some { ret := EXIT_FAILURE, ctx := s.ctx, log := some s.log }
      | some (true, s) =>
        /- FGPA soft reset -/
        let xc := fpga_w T FpgaReg.SOFT_RESET 1 s.ctx
        let xc := fpga_w_or T FpgaReg.SOFT_RESET 0 xc
        /- Close SPI -/
        let d := fpga_disconnect T xc.2
        let x := Int.lor xc.1 d.1
        if x ≠ 0 then
          some { ret := EXIT_FAILURE, ctx := d.2.print (.text .err_disconnect), log := some s.log }
        else
          some { ret := EXIT_SUCCESS,
                 ctx := (d.2.print (.text .info_disconnected)).print (.text .exiting),
                 log := some s.log }

/-! ## Vocabulary of the statements -/

/-- The fifteen transport calls of a complete `setup_sx1272`, in program order:
the version read, three mode-reset writes, the three PLL bytes (most
significant first), six modem-configuration writes, the continuous-receive
command and the mode read-back. -/
def setup_ops (freq : Nat) : List Op :=
  [ Op.sx1272_reg_r 0x42,
    Op.sx1272_reg_w 0x01 0x00, Op.sx1272_reg_w 0x01 0x80, Op.sx1272_reg_w 0x01 0x81,
    Op.sx1272_reg_w 6 (freq_reg freq / 65536 % 256),
    Op.sx1272_reg_w 7 (freq_reg freq / 256 % 256),
    Op.sx1272_reg_w 8 (freq_reg freq % 256),
    Op.sx1272_reg_w 0x1D 0x00, Op.sx1272_reg_w 0x50 0x01, Op.sx1272_reg_w 0x1E 0x74,
    Op.sx1272_reg_w 0x0C 0x23, Op.sx1272_reg_w 0x68 0x07, Op.sx1272_reg_w 0x69 0x60,
    Op.sx1272_reg_w 0x01 0x85,
    Op.sx1272_reg_r 0x01 ]

/-- What the transport answers to one call made in state `s`: the event (the
call, its return code, and for a register read the value left in the
out-parameter, stored as in the program) and the next state. -/
def call (T : Transport σ) (op : Op) (s : σ) : Event × σ :=
  match op with
  | Op.fpga_connect => (⟨op, (T.lgw_fpga_connect s).1, 0⟩, (T.lgw_fpga_connect s).2)
  | Op.fpga_disconnect => (⟨op, (T.lgw_fpga_disconnect s).1, 0⟩, (T.lgw_fpga_disconnect s).2)
  | Op.fpga_reg_w reg val =>
    (⟨op, (T.lgw_fpga_reg_w reg val s).1, 0⟩, (T.lgw_fpga_reg_w reg val s).2)
  | Op.fpga_reg_r reg =>
    (⟨op, (T.lgw_fpga_reg_r reg s).1.1, (T.lgw_fpga_reg_r reg s).1.2 % 4294967296⟩,
      (T.lgw_fpga_reg_r reg s).2)
  | Op.fpga_reg_rb reg size =>
    (⟨op, (T.lgw_fpga_reg_rb reg size s).1.1, 0⟩, (T.lgw_fpga_reg_rb reg size s).2)
  | Op.sx1272_reg_w addr data =>
    (⟨op, (T.lgw_sx1272_reg_w addr data s).1, 0⟩, (T.lgw_sx1272_reg_w addr data s).2)
  | Op.sx1272_reg_r addr =>
    (⟨op, (T.lgw_sx1272_reg_r addr s).1.1, (T.lgw_sx1272_reg_r addr s).1.2 % 256⟩,
      (T.lgw_sx1272_reg_r addr s).2)

/-- What the transport answers to a sequence of calls made one after the other
from state `s`, whether or not the program goes on to make them all. -/
def answers (T : Transport σ) : List Op → σ → List Event
  | [], _ => []
  | op :: ops, s => (call T op s).1 :: answers T ops (call T op s).2

/-- Register writes among the transport calls. -/
def Op.isWrite : Op → Bool
  | Op.sx1272_reg_w _ _ => true
  | Op.fpga_reg_w _ _ => true
  | _ => false

/-- The cumulative sum of the bins before bin `n` (bins `0..n-1`), without
any wrap-around. -/
def cumu (read_burst : List Nat) (n : Nat) : Nat :=
  ((List.range n).map (rssi_histo read_burst)).sum

/-- The 16-bit running sum `rssi_cumu` holds after the bins before bin `n`. -/
def cumu16 (read_burst : List Nat) (n : Nat) : Nat :=
  cumu read_burst n % 65536

/-- The claim that a token names a first crossing: the cumulative sum of bins
`0..b` strictly exceeds `rssi_thresh[k] * rssi_pts`, and the cumulative sum of
bins `0..b1` does not, for every earlier bin `b1 < b`. -/
def first_crossing (rssi_pts : Nat) (read_burst : List Nat) (k b : Nat) : Prop :=
  ∃ t, rssi_thresh.get? k = some t ∧
    (cumu read_burst (b + 1) : ℚ) > t * rssi_pts ∧
    ∀ b1, b1 < b → ¬ ((cumu read_burst (b1 + 1) : ℚ) > t * rssi_pts)

/-- A transport on which every call succeeds: every return code is the success
code, the version register `0x42` reads `0x22`, the mode register `0x01` reads
`0x85`, the FPGA status register reads a value whose low four bits are 8, and
the burst read returns the fixed buffer `hist`. -/
structure Succeeds (T : Transport σ) (hist : List Nat) : Prop where
  connect : ∀ s, (T.lgw_fpga_connect s).1 = 0
  disconnect : ∀ s, (T.lgw_fpga_disconnect s).1 = 0
  fpga_w : ∀ r v s, (T.lgw_fpga_reg_w r v s).1 = LGW_REG_SUCCESS
  status : ∀ s, (T.lgw_fpga_reg_r FpgaReg.FPGA_STATUS s).1.1 = LGW_REG_SUCCESS ∧
    (T.lgw_fpga_reg_r FpgaReg.FPGA_STATUS s).1.2 % 16 = 8
  burst : ∀ r n s, (T.lgw_fpga_reg_rb r n s).1 = (LGW_REG_SUCCESS, hist)
  sx_w : ∀ a d s, (T.lgw_sx1272_reg_w a d s).1 = LGW_REG_SUCCESS
  version : ∀ s, (T.lgw_sx1272_reg_r 0x42 s).1 = (LGW_REG_SUCCESS, 0x22)
  mode : ∀ s, (T.lgw_sx1272_reg_r 0x01 s).1 = (LGW_REG_SUCCESS, 0x85)

/-- The console summary line of one frequency: the frequency, the threshold
tokens of the reducer, the newline. -/
def summary_line (beyond : Nat → Nat → ℚ) (rssi_pts : Nat) (read_burst : List Nat)
    (freq : Nat) : List Print :=
  [Print.freq (freq : Int)] ++ (reduce beyond rssi_pts read_burst freq).out ++ [Print.newline]

/-- The CSV row of one frequency: the frequency, then for each bin its rssi
label and its count. -/
def csv_row (read_burst : List Nat) (freq : Nat) : List Int :=
  (freq : Int) :: (List.range RSSI_RANGE).flatMap
    (fun i => [(i : Int) + RSSI_OFFSET, (rssi_histo read_burst i : Int)])

/-! ## Concrete inputs -/

/-- A transport on which every call succeeds: the version register reads
`0x22`, every other transceiver register reads `0x85`, every FPGA register
reads `8`, and the burst read returns `hist`. -/
def stubT (hist : List Nat) : Transport Unit where
  lgw_fpga_connect := fun s => (0, s)
  lgw_fpga_disconnect := fun s => (0, s)
  lgw_fpga_reg_w := fun _ _ s => (0, s)
  lgw_fpga_reg_r := fun _ s => ((0, 8), s)
  lgw_fpga_reg_rb := fun _ _ s => ((0, hist), s)
  lgw_sx1272_reg_w := fun _ _ s => (0, s)
  lgw_sx1272_reg_r := fun a s => ((0, if a = 0x42 then 0x22 else 0x85), s)

/-- The burst-read buffer of the histogram that is zero except
bin 100 = 65535. -/
def hist100 : List Nat := List.replicate 200 0 ++ [255, 255] ++ List.replicate 310 0

/-- The burst-read buffer of the histogram with one sample in each of the
bins 0 to 4 and none elsewhere. -/
def hist5 : List Nat := [1, 0, 1, 0, 1, 0, 1, 0, 1, 0] ++ List.replicate 502 0

/-- A transport on which every call of the histogram acquisition reports
failure (return code -1): the start and stop commands (`FPGA_CTRL` written
with 1 and 0), the reset of the read address, and the burst read, which leaves
`hist` in the buffer. Every other call answers as on `stubT`. -/
def failT (hist : List Nat) : Transport Unit where
  lgw_fpga_connect := fun s => (0, s)
  lgw_fpga_disconnect := fun s => (0, s)
  lgw_fpga_reg_w := fun r v s =>
    (if (r = FpgaReg.FPGA_CTRL ∧ (v = 1 ∨ v = 0)) ∨ r = FpgaReg.HISTO_RAM_ADDR then -1 else 0, s)
  lgw_fpga_reg_r := fun _ s => ((0, 8), s)
  lgw_fpga_reg_rb := fun _ _ s => ((-1, hist), s)
  lgw_sx1272_reg_w := fun _ _ s => (0, s)
  lgw_sx1272_reg_r := fun a s => ((0, if a = 0x42 then 0x22 else 0x85), s)

/-- An environment in which the log file can be created, one status poll is
allowed per acquisition, and the memory beyond `rssi_thresh` reads as zero. -/
def env0 : Env := { fopen_ok := true, fuel := 1, beyond := fun _ _ _ => 0 }

/-- The parameters the option `-f 900:0.005:800` leaves: the stop frequency
lies below the start frequency. -/
def descending : Params :=
  { start_freq := 900000000, stop_freq := 800000000, step_freq := 5000,
    rssi_pts := 65535, rssi_rate_div := 1 }

/-- The empty context over the stub transport. -/
def ctx0 : Ctx Unit := { st := (), events := [], console := [] }

/-- The sweep 868 MHz to 870 MHz in steps of 1 MHz with the default
sample count and rate divisor. -/
def sweep3 : Params :=
  { start_freq := 868000000, stop_freq := 870000000, step_freq := 1000000,
    rssi_pts := 65535, rssi_rate_div := 1 }

/-! ## Arithmetic lemmas -/

theorem nat_lor_eq_zero (m n : Nat) : m ||| n = 0 ↔ m = 0 ∧ n = 0 := by
  constructor
  · intro h
    have hb : ∀ i, (m.testBit i || n.testBit i) = false := by
      intro i
      rw [← Nat.testBit_or, h]; simp
    constructor
    · apply Nat.eq_of_testBit_eq; intro i
      have := hb i
      simp only [Bool.or_eq_false_iff] at this
      simp [this.1]
    · apply Nat.eq_of_testBit_eq; intro i
      have := hb i
      simp only [Bool.or_eq_false_iff] at this
      simp [this.2]
  · rintro ⟨rfl, rfl⟩; rfl

theorem int_lor_eq_zero (a b : Int) : Int.lor a b = 0 ↔ a = 0 ∧ b = 0 := by
  cases a with
  | ofNat m =>
    cases b with
    | ofNat n =>
      show ((m ||| n : Nat) : Int) = 0 ↔ _
      rw [Int.natCast_eq_zero, nat_lor_eq_zero]
      simp
    | negSucc n =>
      show Int.negSucc _ = 0 ↔ _
      constructor
      · intro h; cases h
      · rintro ⟨_, h⟩; cases h
  | negSucc m =>
    constructor
    · intro h
      cases b <;> cases h
    · rintro ⟨h, _⟩; cases h

theorem freq_reg_eq (freq : Nat) (h : freq ≤ MAX_FREQ) :
    freq_reg freq = freq * 524288 / 32000000 ∧ freq_reg freq < 16777216 := by
  unfold MAX_FREQ at h
  unfold freq_reg
  rw [Nat.shiftLeft_eq]
  have h1 : freq * 2 ^ 19 % 18446744073709551616 = freq * 524288 := by
    norm_num
    omega
  rw [h1]
  constructor
  · rfl
  · omega

theorem bytes_recombine (v : Nat) (h : v < 16777216) :
    ((((v >>> 16) &&& 0xFF) <<< 16) ||| (((v >>> 8) &&& 0xFF) <<< 8) ||| (v &&& 0xFF)) = v := by
  have e : (0xFF : Nat) = 2 ^ 8 - 1 := by norm_num
  rw [e, Nat.and_pow_two_sub_one_eq_mod, Nat.and_pow_two_sub_one_eq_mod,
    Nat.and_pow_two_sub_one_eq_mod, Nat.shiftRight_eq_div_pow, Nat.shiftRight_eq_div_pow,
    Nat.shiftLeft_eq, Nat.shiftLeft_eq]
  have h8 : v % 2 ^ 8 < 2 ^ 8 := Nat.mod_lt _ (by norm_num)
  have h16 : v / 2 ^ 8 % 2 ^ 8 * 2 ^ 8 + v % 2 ^ 8 < 2 ^ 16 := by
    have : v / 2 ^ 8 % 2 ^ 8 < 2 ^ 8 := Nat.mod_lt _ (by norm_num)
    norm_num at *
    omega
  rw [Nat.or_assoc]
  rw [Nat.mul_comm (v / 2 ^ 8 % 2 ^ 8), ← Nat.mul_add_lt_is_or h8]
  rw [Nat.mul_comm (v / 2 ^ 16 % 2 ^ 8), ← Nat.mul_add_lt_is_or (by rw [Nat.mul_comm]; exact h16)]
  norm_num at *
  omega

theorem byte_shift16 (v : Nat) : ((v >>> 16) &&& 0xFF) % 256 = v / 65536 % 256 := by
  have e : (0xFF : Nat) = 2 ^ 8 - 1 := by norm_num
  rw [e, Nat.and_pow_two_sub_one_eq_mod, Nat.shiftRight_eq_div_pow]; norm_num
theorem byte_shift8 (v : Nat) : ((v >>> 8) &&& 0xFF) % 256 = v / 256 % 256 := by
  have e : (0xFF : Nat) = 2 ^ 8 - 1 := by norm_num
  rw [e, Nat.and_pow_two_sub_one_eq_mod, Nat.shiftRight_eq_div_pow]; norm_num
theorem byte_shift0 (v : Nat) : (v &&& 0xFF) % 256 = v % 256 := by
  have e : (0xFF : Nat) = 2 ^ 8 - 1 := by norm_num
  rw [e, Nat.and_pow_two_sub_one_eq_mod]; norm_num


theorem toInt32_small (v : Nat) (h : v < 2147483648) : toInt32 v = (v : Int) := by
  unfold toInt32
  have : v % 4294967296 = v := Nat.mod_eq_of_lt (by omega)
  rw [this, if_pos h]

theorem sub32_le (a b : Nat) (ha : a < 4294967296) (hab : b ≤ a) : sub32 a b = a - b := by
  unfold sub32
  omega


theorem pll_quantization (freq : Nat) :
    ((freq * 524288 / 32000000 : Nat) : ℚ) * 32000000 / 2 ^ 19 ≤ (freq : ℚ) ∧
    (freq : ℚ) - ((freq * 524288 / 32000000 : Nat) : ℚ) * 32000000 / 2 ^ 19 < 32000000 / 2 ^ 19 := by
  have h1 : freq * 524288 / 32000000 * 32000000 ≤ freq * 524288 := Nat.div_mul_le_self _ _
  have h2 : freq * 524288 < freq * 524288 / 32000000 * 32000000 + 32000000 :=
    Nat.lt_div_mul_add (by norm_num)
  have h1q : ((freq * 524288 / 32000000 : Nat) : ℚ) * 32000000 ≤ (freq : ℚ) * 524288 := by
    exact_mod_cast h1
  have h2q : (freq : ℚ) * 524288 < ((freq * 524288 / 32000000 : Nat) : ℚ) * 32000000 + 32000000 := by
    exact_mod_cast h2
  constructor
  · rw [div_le_iff₀ (by norm_num)]; norm_num; linarith
  · rw [sub_lt_iff_lt_add, ← add_div, lt_div_iff₀ (by norm_num)]; norm_num; linarith


/-! ## The reducer loop, bin by bin -/

theorem reduce_upto_succ (beyond : Nat → Nat → ℚ) (pts : Nat) (buf : List Nat) (freq n : Nat) :
    reduce_upto beyond pts buf freq (n + 1) =
      reduce_bin beyond pts buf (reduce_upto beyond pts buf freq n) n := by
  simp [reduce_upto, List.range_succ, List.foldl_append]

theorem reduce_upto_zero (beyond : Nat → Nat → ℚ) (pts : Nat) (buf : List Nat) (freq : Nat) :
    reduce_upto beyond pts buf freq 0 = reduce_init freq := by
  simp [reduce_upto]

theorem cumu_succ (buf : List Nat) (n : Nat) :
    cumu buf (n + 1) = cumu buf n + rssi_histo buf n := by
  simp [cumu, List.range_succ]

theorem reduce_upto_cumu (beyond : Nat → Nat → ℚ) (pts : Nat) (buf : List Nat) (freq n : Nat) :
    (reduce_upto beyond pts buf freq n).rssi_cumu = cumu16 buf n := by
  induction n with
  | zero => simp [reduce_upto_zero, reduce_init, cumu16, cumu]
  | succ n ih =>
    rw [reduce_upto_succ]
    have h : (reduce_bin beyond pts buf (reduce_upto beyond pts buf freq n) n).rssi_cumu =
        ((reduce_upto beyond pts buf freq n).rssi_cumu + rssi_histo buf n) % 65536 := by
      simp only [reduce_bin]
      split_ifs <;> rfl
    rw [h, ih, cumu16, cumu16, cumu_succ, Nat.mod_add_mod]

theorem reduce_upto_k_step (beyond : Nat → Nat → ℚ) (pts : Nat) (buf : List Nat) (freq n : Nat) :
    (reduce_upto beyond pts buf freq (n + 1)).k =
      if (cumu16 buf (n + 1) : ℚ) > thresh_read beyond n (reduce_upto beyond pts buf freq n).k * (pts : ℚ)
      then (reduce_upto beyond pts buf freq n).k + 1 else (reduce_upto beyond pts buf freq n).k := by
  rw [reduce_upto_succ]
  have hc := reduce_upto_cumu beyond pts buf freq n
  simp only [reduce_bin]
  simp only [hc]
  have : (cumu16 buf n + rssi_histo buf n) % 65536 = cumu16 buf (n + 1) := by
    rw [cumu16, cumu16, cumu_succ, Nat.mod_add_mod]
  rw [this]
  split_ifs <;> rfl

theorem reduce_upto_out_step (beyond : Nat → Nat → ℚ) (pts : Nat) (buf : List Nat) (freq n : Nat) :
    (reduce_upto beyond pts buf freq (n + 1)).out =
      if (cumu16 buf (n + 1) : ℚ) > thresh_read beyond n (reduce_upto beyond pts buf freq n).k * (pts : ℚ)
      then (reduce_upto beyond pts buf freq n).out ++ [Print.token (reduce_upto beyond pts buf freq n).k n]
      else (reduce_upto beyond pts buf freq n).out := by
  rw [reduce_upto_succ]
  have hc := reduce_upto_cumu beyond pts buf freq n
  simp only [reduce_bin]
  simp only [hc]
  have : (cumu16 buf n + rssi_histo buf n) % 65536 = cumu16 buf (n + 1) := by
    rw [cumu16, cumu16, cumu_succ, Nat.mod_add_mod]
  rw [this]
  split_ifs <;> rfl

theorem reduce_upto_idx_step (beyond : Nat → Nat → ℚ) (pts : Nat) (buf : List Nat) (freq n : Nat) :
    (reduce_upto beyond pts buf freq (n + 1)).idx =
      (reduce_upto beyond pts buf freq n).idx ++ [(reduce_upto beyond pts buf freq n).k] := by
  rw [reduce_upto_succ]
  simp only [reduce_bin]
  split_ifs <;> rfl

theorem reduce_upto_row_step (beyond : Nat → Nat → ℚ) (pts : Nat) (buf : List Nat) (freq n : Nat) :
    (reduce_upto beyond pts buf freq (n + 1)).row =
      (reduce_upto beyond pts buf freq n).row ++ [(n : Int) + RSSI_OFFSET, (rssi_histo buf n : Int)] := by
  rw [reduce_upto_succ]
  simp only [reduce_bin]
  split_ifs <;> rfl

theorem reduce_upto_k_mono (beyond : Nat → Nat → ℚ) (pts : Nat) (buf : List Nat) (freq : Nat)
    {m n : Nat} (h : m ≤ n) :
    (reduce_upto beyond pts buf freq m).k ≤ (reduce_upto beyond pts buf freq n).k := by
  induction n with
  | zero =>
    have : m = 0 := by omega
    subst this; exact le_refl _
  | succ n ih =>
    rcases Nat.eq_or_lt_of_le h with h1 | h1
    · subst h1; exact le_refl _
    · have := ih (by omega)
      rw [reduce_upto_k_step]
      split_ifs <;> omega

theorem reduce_upto_idx (beyond : Nat → Nat → ℚ) (pts : Nat) (buf : List Nat) (freq n : Nat) :
    (reduce_upto beyond pts buf freq n).idx =
      (List.range n).map (fun i => (reduce_upto beyond pts buf freq i).k) := by
  induction n with
  | zero => simp [reduce_upto_zero, reduce_init]
  | succ n ih => rw [reduce_upto_idx_step, ih, List.range_succ, List.map_append]; rfl

theorem reduce_upto_row (beyond : Nat → Nat → ℚ) (pts : Nat) (buf : List Nat) (freq n : Nat) :
    (reduce_upto beyond pts buf freq n).row =
      toInt32 freq :: (List.range n).flatMap
        (fun i => [(i : Int) + RSSI_OFFSET, (rssi_histo buf i : Int)]) := by
  induction n with
  | zero => simp [reduce_upto_zero, reduce_init]
  | succ n ih =>
    rw [reduce_upto_row_step, ih, List.range_succ]
    simp [List.flatMap_append]

theorem tokens_append_token (l : List Print) (k i : Nat) :
    tokens (l ++ [Print.token k i]) = tokens l ++ [(k, i)] := by
  induction l with
  | nil => rfl
  | cons p l ih => cases p <;> simp [tokens, ih]

/-- Tokens of the first `n` bins: membership. -/
theorem mem_tokens_reduce_upto (beyond : Nat → Nat → ℚ) (pts : Nat) (buf : List Nat) (freq n : Nat)
    (k b : Nat) :
    (k, b) ∈ tokens (reduce_upto beyond pts buf freq n).out ↔
      b < n ∧ k = (reduce_upto beyond pts buf freq b).k ∧
      (cumu16 buf (b + 1) : ℚ) > thresh_read beyond b k * (pts : ℚ) := by
  induction n with
  | zero => simp [reduce_upto_zero, reduce_init, tokens]
  | succ n ih =>
    rw [reduce_upto_out_step]
    split_ifs with hc
    · rw [tokens_append_token, List.mem_append, ih, List.mem_singleton, Prod.mk.injEq]
      constructor
      · rintro (⟨h1, h2, h3⟩ | ⟨rfl, rfl⟩)
        · exact ⟨by omega, h2, h3⟩
        · exact ⟨by omega, rfl, hc⟩
      · rintro ⟨h1, h2, h3⟩
        rcases Nat.lt_succ_iff_lt_or_eq.mp h1 with h | h
        · exact Or.inl ⟨h, h2, h3⟩
        · subst h; exact Or.inr ⟨h2, rfl⟩
    · rw [ih]
      constructor
      · rintro ⟨h1, h2, h3⟩
        exact ⟨by omega, h2, h3⟩
      · rintro ⟨h1, h2, h3⟩
        rcases Nat.lt_succ_iff_lt_or_eq.mp h1 with h | h
        · exact ⟨h, h2, h3⟩
        · subst h; subst h2; exact absurd h3 hc

theorem tokens_length_reduce_upto (beyond : Nat → Nat → ℚ) (pts : Nat) (buf : List Nat)
    (freq n : Nat) :
    (tokens (reduce_upto beyond pts buf freq n).out).length = (reduce_upto beyond pts buf freq n).k := by
  induction n with
  | zero => simp [reduce_upto_zero, reduce_init, tokens]
  | succ n ih =>
    rw [reduce_upto_out_step, reduce_upto_k_step]
    split_ifs
    · rw [tokens_append_token, List.length_append, ih]; rfl
    · exact ih

theorem tokens_fst_reduce_upto (beyond : Nat → Nat → ℚ) (pts : Nat) (buf : List Nat)
    (freq n : Nat) :
    (tokens (reduce_upto beyond pts buf freq n).out).map Prod.fst =
      List.range (reduce_upto beyond pts buf freq n).k := by
  induction n with
  | zero => simp [reduce_upto_zero, reduce_init, tokens]
  | succ n ih =>
    rw [reduce_upto_out_step, reduce_upto_k_step]
    split_ifs
    · rw [tokens_append_token, List.map_append, ih, List.range_succ]; rfl
    · exact ih

theorem tokens_snd_reduce_upto (beyond : Nat → Nat → ℚ) (pts : Nat) (buf : List Nat)
    (freq n : Nat) :
    ((tokens (reduce_upto beyond pts buf freq n).out).map Prod.snd).Pairwise (· < ·) := by
  induction n with
  | zero => simp [reduce_upto_zero, reduce_init, tokens]
  | succ n ih =>
    rw [reduce_upto_out_step]
    split_ifs
    · rw [tokens_append_token, List.map_append, List.pairwise_append]
      refine ⟨ih, by simp, ?_⟩
      intro a ha b hb
      simp only [List.map_cons, List.map_nil, List.mem_singleton] at hb
      rw [hb]
      rw [List.mem_map] at ha
      obtain ⟨⟨k, b1⟩, hm, rfl⟩ := ha
      exact ((mem_tokens_reduce_upto beyond pts buf freq n k b1).mp hm).1
    · exact ih

theorem thresh_read_four (beyond : Nat → Nat → ℚ) (i : Nat) : thresh_read beyond i 4 = 1 := by
  simp [thresh_read, rssi_thresh]

/-- The last table entry is a sentinel: as long as the running sum never exceeds the sample
count, the threshold index stays inside the table. -/
theorem reduce_upto_k_le_four (beyond : Nat → Nat → ℚ) (pts : Nat) (buf : List Nat) (freq n : Nat)
    (h : ∀ i, i < n → cumu16 buf (i + 1) ≤ pts) :
    (reduce_upto beyond pts buf freq n).k ≤ 4 := by
  induction n with
  | zero => simp [reduce_upto_zero, reduce_init]
  | succ n ih =>
    have ihn := ih (fun i hi => h i (by omega))
    rw [reduce_upto_k_step]
    split_ifs with hc
    · rcases Nat.lt_or_ge (reduce_upto beyond pts buf freq n).k 4 with h4 | h4
      · omega
      · have hk : (reduce_upto beyond pts buf freq n).k = 4 := by omega
        rw [hk, thresh_read_four, one_mul] at hc
        have := h n (by omega)
        have : (cumu16 buf (n + 1) : ℚ) ≤ (pts : ℚ) := by exact_mod_cast this
        exact absurd hc (not_lt.mpr this)
    · exact ihn

theorem rssi_histo_eq (buf : List Nat) (i : Nat) :
    rssi_histo buf i = byte_at buf (2 * i) + 256 * byte_at buf (2 * i + 1) := by
  unfold rssi_histo
  have h0 : byte_at buf (2 * i) < 2 ^ 8 := by unfold byte_at; exact Nat.mod_lt _ (by norm_num)
  have h1 : byte_at buf (2 * i + 1) < 256 := by unfold byte_at; exact Nat.mod_lt _ (by norm_num)
  rw [Nat.shiftLeft_eq, Nat.lor_comm, Nat.mul_comm, ← Nat.mul_add_lt_is_or h0]
  norm_num at *
  omega

theorem byte_at_of_lt (buf : List Nat) (n : Nat) (hn : n < buf.length) (hb : ∀ b ∈ buf, b < 256) :
    byte_at buf n = buf.getD n 0 := by
  unfold byte_at
  apply Nat.mod_eq_of_lt
  rw [List.getD_eq_getElem _ _ hn]
  exact hb _ (List.getElem_mem _)

theorem pairs_length {α : Type} (f g : Nat → α) (n : Nat) :
    ((List.range n).flatMap (fun i => [f i, g i])).length = 2 * n := by
  induction n with
  | zero => simp
  | succ n ih => rw [List.range_succ, List.flatMap_append, List.length_append, ih]; simp; omega

theorem pairs_get {α : Type} (f g : Nat → α) (n i : Nat) (h : i < n) :
    ((List.range n).flatMap (fun i => [f i, g i])).get? (2 * i) = some (f i) ∧
    ((List.range n).flatMap (fun i => [f i, g i])).get? (2 * i + 1) = some (g i) := by
  induction n with
  | zero => omega
  | succ n ih =>
    rw [List.range_succ, List.flatMap_append]
    simp only [List.get?_eq_getElem?]
    rcases Nat.lt_succ_iff_lt_or_eq.mp h with h1 | h1
    · have := ih h1
      simp only [List.get?_eq_getElem?] at this
      rw [List.getElem?_append_left (by rw [pairs_length]; omega),
        List.getElem?_append_left (by rw [pairs_length]; omega)]
      exact this
    · subst h1
      rw [List.getElem?_append_right (by rw [pairs_length]),
        List.getElem?_append_right (by rw [pairs_length]; omega), pairs_length]
      simp

theorem hist100_length : hist100.length = 512 := by
  simp only [hist100, List.length_append, List.length_replicate, List.length_cons, List.length_nil]

theorem hist100_bytes : ∀ b ∈ hist100, b < 256 := by
  intro b hb
  simp only [hist100, List.mem_append, List.mem_replicate, List.mem_cons, List.mem_singleton,
    List.not_mem_nil, or_false] at hb
  omega


theorem reduce_idx_get (beyond : Nat → Nat → ℚ) (pts : Nat) (buf : List Nat) (freq i : Nat)
    (h : i < RSSI_RANGE) :
    (reduce beyond pts buf freq).idx.get? i = some (reduce_upto beyond pts buf freq i).k := by
  unfold reduce
  rw [reduce_upto_idx, List.get?_eq_getElem?, List.getElem?_map, List.getElem?_range h]
  rfl

theorem thresh_read_lt (beyond : Nat → Nat → ℚ) (i k : Nat) (t : ℚ)
    (h : rssi_thresh.get? k = some t) : thresh_read beyond i k = t := by
  unfold thresh_read
  rw [h]

theorem hist5_k (beyond : Nat → Nat → ℚ) (freq : Nat) :
    (reduce_upto beyond 1 hist5 freq 5).k = 5 := by
  have c1 : cumu16 hist5 1 = 1 := by decide
  have c2 : cumu16 hist5 2 = 2 := by decide
  have c3 : cumu16 hist5 3 = 3 := by decide
  have c4 : cumu16 hist5 4 = 4 := by decide
  have c5 : cumu16 hist5 5 = 5 := by decide
  have k0 : (reduce_upto beyond 1 hist5 freq 0).k = 0 := by
    rw [reduce_upto_zero]; rfl
  have k1 : (reduce_upto beyond 1 hist5 freq 1).k = 1 := by
    rw [reduce_upto_k_step, k0, c1, thresh_read_lt beyond 0 0 (1/10) rfl]; norm_num
  have k2 : (reduce_upto beyond 1 hist5 freq 2).k = 2 := by
    rw [reduce_upto_k_step, k1, c2, thresh_read_lt beyond 1 1 (3/10) rfl]; norm_num
  have k3 : (reduce_upto beyond 1 hist5 freq 3).k = 3 := by
    rw [reduce_upto_k_step, k2, c3, thresh_read_lt beyond 2 2 (1/2) rfl]; norm_num
  have k4 : (reduce_upto beyond 1 hist5 freq 4).k = 4 := by
    rw [reduce_upto_k_step, k3, c4, thresh_read_lt beyond 3 3 (4/5) rfl]; norm_num
  rw [reduce_upto_k_step, k4, c5, thresh_read_lt beyond 4 4 1 rfl]; norm_num

theorem cumu16_lt (buf : List Nat) (n : Nat) : cumu16 buf n < 65536 := by
  unfold cumu16; exact Nat.mod_lt _ (by norm_num)

theorem cumu16_le_cumu (buf : List Nat) (n : Nat) : cumu16 buf n ≤ cumu buf n := by
  unfold cumu16; exact Nat.mod_le _ _

theorem cumu_mono (buf : List Nat) {m n : Nat} (h : m ≤ n) : cumu buf m ≤ cumu buf n := by
  induction n with
  | zero =>
    have : m = 0 := by omega
    subst this; exact le_refl _
  | succ n ih =>
    rcases Nat.eq_or_lt_of_le h with h1 | h1
    · subst h1; exact le_refl _
    · have := ih (by omega)
      rw [cumu_succ]; omega

/-- Without overflow of the histogram total, the 16-bit running sum is the cumulative sum. -/
theorem cumu16_eq_cumu (buf : List Nat) (n : Nat) (hn : n ≤ RSSI_RANGE)
    (h : cumu buf RSSI_RANGE ≤ 65535) : cumu16 buf n = cumu buf n := by
  unfold cumu16
  apply Nat.mod_eq_of_lt
  have := cumu_mono buf hn
  omega

/-- A crossing at bin `b` advances the threshold index. -/
theorem reduce_upto_k_of_crossing (beyond : Nat → Nat → ℚ) (pts : Nat) (buf : List Nat)
    (freq b : Nat)
    (h : (cumu16 buf (b + 1) : ℚ) >
      thresh_read beyond b (reduce_upto beyond pts buf freq b).k * (pts : ℚ)) :
    (reduce_upto beyond pts buf freq (b + 1)).k = (reduce_upto beyond pts buf freq b).k + 1 := by
  rw [reduce_upto_k_step, if_pos h]

set_option maxRecDepth 100000 in
theorem hist100_sum : cumu hist100 RSSI_RANGE = 65535 := by decide

/-- Every token's threshold index is below the number of tokens. -/
theorem prev_token_exists (beyond : Nat → Nat → ℚ) (pts : Nat) (buf : List Nat) (freq n : Nat)
    (k : Nat) (hk : k < (reduce_upto beyond pts buf freq n).k) :
    ∃ b, (k, b) ∈ tokens (reduce_upto beyond pts buf freq n).out := by
  have hf := tokens_fst_reduce_upto beyond pts buf freq n
  have hm : k ∈ (tokens (reduce_upto beyond pts buf freq n).out).map Prod.fst := by
    rw [hf]; exact List.mem_range.mpr hk
  rw [List.mem_map] at hm
  obtain ⟨⟨k1, b⟩, hmem, rfl⟩ := hm
  exact ⟨b, hmem⟩

/-- No crossing at a bin before `b` that was tested against the index in use at `b`. -/
theorem no_crossing_before (beyond : Nat → Nat → ℚ) (pts : Nat) (buf : List Nat) (freq : Nat)
    (b b1 : Nat) (hb1 : b1 < b)
    (hk : (reduce_upto beyond pts buf freq b1).k = (reduce_upto beyond pts buf freq b).k) :
    ¬ ((cumu16 buf (b1 + 1) : ℚ) >
      thresh_read beyond b1 (reduce_upto beyond pts buf freq b).k * (pts : ℚ)) := by
  intro hc
  rw [← hk] at hc
  have h1 := reduce_upto_k_of_crossing beyond pts buf freq b1 hc
  have h2 := reduce_upto_k_mono beyond pts buf freq (m := b1 + 1) (n := b) (by omega)
  omega

set_option maxRecDepth 100000 in
theorem hist100_token : (1, 101) ∈ tokens (reduce (fun _ _ => 0) 65535 hist100 868000000).out := by
  decide!


/-! ## The run over a transport that succeeds -/

theorem int_lor_zero_zero : Int.lor 0 0 = 0 := rfl

theorem setup_sx1272_ok (T : Transport σ) (hist : List Nat) (hT : Succeeds T hist)
    (freq : Nat) (c : Ctx σ) :
    ∃ c1, setup_sx1272 T freq c = (EXIT_SUCCESS, c1) ∧ c1.console = c.console ∧
      ∃ ev, c1.events = c.events ++ ev := by
  have hv := hT.version
  have hm := hT.mode
  have hw := hT.sx_w
  simp only [LGW_REG_SUCCESS] at hv hm hw
  simp only [setup_sx1272, sx_w_or, sx_w, sx_r, Ctx.print, LGW_REG_SUCCESS, hv, hm, hw,
    int_lor_zero_zero]
  rw [if_neg (by decide), if_neg (by decide), if_neg (by decide), if_neg (by decide)]
  exact ⟨_, rfl, rfl, _, by simp only [List.append_assoc]; rfl⟩

theorem low_bits (v : Nat) (h : v % 16 = 8) : (v % 4294967296) &&& 0x0F = 8 := by
  have e : (0x0F : Nat) = 2 ^ 4 - 1 := by norm_num
  rw [e, Nat.and_pow_two_sub_one_eq_mod]
  omega

theorem poll_ok (T : Transport σ) (hist : List Nat) (hT : Succeeds T hist)
    (fuel : Nat) (hfuel : 1 ≤ fuel) (c : Ctx σ) :
    ∃ c1, poll T fuel c = some c1 ∧ c1.console = c.console ∧
      ∃ ev, c1.events = c.events ++ ev := by
  obtain ⟨f, rfl⟩ : ∃ f, fuel = f + 1 := ⟨fuel - 1, by omega⟩
  have hs := (hT.status c.st).2
  simp only [poll, fpga_r]
  rw [if_neg (by simp [low_bits _ hs])]
  exact ⟨_, rfl, rfl, _, rfl⟩

theorem scan_step_ok (T : Transport σ) (hist : List Nat) (hT : Succeeds T hist)
    (p : Params) (env : Env) (hfuel : 1 ≤ env.fuel) (j : Nat) (s : Scan σ) (hx : s.x = 0) :
    ∃ s1, scan_step T p env j s = StepOut.next s1 ∧ s1.x = 0 ∧
      s1.log = s.log ++ [(reduce (env.beyond j) p.rssi_pts hist (freq_at p j)).row] ∧
      s1.ctx.console = s.ctx.console ++ ([Print.freq (toInt32 (freq_at p j))] ++
        (reduce (env.beyond j) p.rssi_pts hist (freq_at p j)).out ++ [Print.newline]) ∧
      ∃ ev, s1.ctx.events = s.ctx.events ++ ev := by
  obtain ⟨c1, hc1, hcon1, ev1, hev1⟩ := setup_sx1272_ok T hist hT (freq_at p j)
    (s.ctx.print (Print.freq (toInt32 (freq_at p j))))
  obtain ⟨c2, hc2, hcon2, ev2, hev2⟩ := poll_ok T hist hT env.fuel hfuel
    (fpga_w T FpgaReg.FPGA_CTRL 1 c1).2
  have hb := hT.burst
  simp only [scan_step, hc1, hx, EXIT_SUCCESS, int_lor_zero_zero, hc2]
  simp only [fpga_rb, fpga_w, hb]
  rw [if_neg (by decide)]
  refine ⟨_, rfl, rfl, rfl, ?_, ?_⟩
  · simp only [hcon2, fpga_w, hcon1, Ctx.print, List.append_assoc]
  · simp only [hev2, fpga_w, hev1, Ctx.print, List.append_assoc]
    exact ⟨_, rfl⟩

theorem range_map_shift {α : Type} (f : Nat → α) (j n : Nat) :
    (List.range (n + 1)).map (fun i => f (j + i)) =
      f j :: (List.range n).map (fun i => f (j + 1 + i)) := by
  rw [List.range_succ_eq_map, List.map_cons, List.map_map]
  refine congrArg₂ _ rfl ?_
  apply List.map_congr_left
  intro i _
  show f (j + (i + 1)) = f (j + 1 + i)
  rw [show j + (i + 1) = j + 1 + i by omega]

theorem range_flatMap_shift {α : Type} (f : Nat → List α) (j n : Nat) :
    (List.range (n + 1)).flatMap (fun i => f (j + i)) =
      f j ++ (List.range n).flatMap (fun i => f (j + 1 + i)) := by
  rw [List.range_succ_eq_map, List.flatMap_cons, List.flatMap_map]
  refine congrArg₂ _ rfl ?_
  apply List.flatMap_congr
  intro i _
  show f (j + (i + 1)) = f (j + 1 + i)
  rw [show j + (i + 1) = j + 1 + i by omega]

theorem scan_loop_ok (T : Transport σ) (hist : List Nat) (hT : Succeeds T hist)
    (p : Params) (env : Env) (hfuel : 1 ≤ env.fuel) (n : Nat) :
    ∀ (j : Nat) (s : Scan σ), s.x = 0 →
    ∃ s1, scan_loop T p env n j s = some (true, s1) ∧ s1.x = 0 ∧
      s1.log = s.log ++ (List.range n).map
        (fun i => (reduce (env.beyond (j + i)) p.rssi_pts hist (freq_at p (j + i))).row) ∧
      s1.ctx.console = s.ctx.console ++ (List.range n).flatMap
        (fun i => [Print.freq (toInt32 (freq_at p (j + i)))] ++
          (reduce (env.beyond (j + i)) p.rssi_pts hist (freq_at p (j + i))).out ++
          [Print.newline]) ∧
      ∃ ev, s1.ctx.events = s.ctx.events ++ ev := by
  induction n with
  | zero =>
    intro j s hx
    exact ⟨s, rfl, hx, by simp, by simp, [], by simp⟩
  | succ n ih =>
    intro j s hx
    obtain ⟨s1, h1, hx1, hlog1, hcon1, ev1, hev1⟩ := scan_step_ok T hist hT p env hfuel j s hx
    obtain ⟨s2, h2, hx2, hlog2, hcon2, ev2, hev2⟩ := ih (j + 1) s1 hx1
    refine ⟨s2, ?_, hx2, ?_, ?_, ev1 ++ ev2, ?_⟩
    · rw [scan_loop, h1]; exact h2
    · rw [hlog2, hlog1, range_map_shift
        (fun i => (reduce (env.beyond i) p.rssi_pts hist (freq_at p i)).row) j n,
        List.append_assoc]
      rfl
    · rw [hcon2, hcon1, range_flatMap_shift
        (fun i => [Print.freq (toInt32 (freq_at p i))] ++
          (reduce (env.beyond i) p.rssi_pts hist (freq_at p i)).out ++ [Print.newline]) j n,
        List.append_assoc]
    · rw [hev2, hev1, List.append_assoc]

theorem freq_nb_of_le (p : Params) (h2 : p.stop_freq ≤ MAX_FREQ)
    (h3 : p.start_freq ≤ p.stop_freq) :
    freq_nb p = ((p.stop_freq - p.start_freq) / p.step_freq : Nat) + 1 := by
  unfold MAX_FREQ at h2
  have hq : (p.stop_freq - p.start_freq) / p.step_freq ≤ p.stop_freq - p.start_freq :=
    Nat.div_le_self _ _
  unfold freq_nb
  rw [sub32_le _ _ (by omega) h3, toInt32_small _ (by omega)]

theorem freq_at_of_le (p : Params) (h2 : p.stop_freq ≤ MAX_FREQ)
    (h3 : p.start_freq ≤ p.stop_freq) (j : Nat)
    (hj : j ≤ (p.stop_freq - p.start_freq) / p.step_freq) :
    freq_at p j = p.start_freq + j * p.step_freq ∧ p.start_freq + j * p.step_freq ≤ MAX_FREQ := by
  unfold MAX_FREQ at h2 ⊢
  have hm : j * p.step_freq ≤ p.stop_freq - p.start_freq :=
    le_trans (Nat.mul_le_mul_right _ hj) (Nat.div_mul_le_self _ _)
  refine ⟨?_, by omega⟩
  unfold freq_at
  omega

theorem reduce_row_eq (beyond : Nat → Nat → ℚ) (pts : Nat) (buf : List Nat) (freq : Nat)
    (h : freq ≤ MAX_FREQ) : (reduce beyond pts buf freq).row = csv_row buf freq := by
  unfold reduce csv_row
  rw [reduce_upto_row, toInt32_small freq (by unfold MAX_FREQ at h; omega)]


theorem stubT_succeeds (hist : List Nat) : Succeeds (stubT hist) hist where
  connect := fun _ => rfl
  disconnect := fun _ => rfl
  fpga_w := fun _ _ _ => rfl
  status := fun _ => ⟨rfl, rfl⟩
  burst := fun _ _ _ => rfl
  sx_w := fun _ _ _ => rfl
  version := fun _ => rfl
  mode := fun _ => rfl


/-! ## The claims -/

/-- C1. End to end over a transport on which every call succeeds (and with a
log file that can be created, one status poll allowed per acquisition): for
`start_freq ≤ stop_freq ≤ MAX_FREQ` and `step_freq ≥ MIN_STEP_FREQ` the run
returns `EXIT_SUCCESS`; with `freq_nb = (stop_freq - start_freq) / step_freq + 1`
the log holds exactly the `freq_nb` rows of the frequencies
`start_freq + j*step_freq` in ascending order of `j`, the console holds, between
the opening and the closing messages, exactly the `freq_nb` summary lines of
these frequencies in the same order, and the last three transport calls are
`SOFT_RESET` written with 1, `SOFT_RESET` written with 0, and the disconnect. -/
theorem end_to_end (T : Transport σ) (hist : List Nat) (p : Params) (env : Env) (s0 : σ)
    (hT : Succeeds T hist)
    (h2 : p.stop_freq ≤ MAX_FREQ)
    (h3 : p.start_freq ≤ p.stop_freq) (_hstep : MIN_STEP_FREQ ≤ p.step_freq)
    (hopen : env.fopen_ok = true) (hfuel : 1 ≤ env.fuel) :
    ∃ res, main T p env s0 = some res ∧ res.ret = EXIT_SUCCESS ∧
      freq_nb p = ((p.stop_freq - p.start_freq) / p.step_freq : Nat) + 1 ∧
      res.log = some ((List.range ((p.stop_freq - p.start_freq) / p.step_freq + 1)).map
        (fun j => csv_row hist (p.start_freq + j * p.step_freq))) ∧
      res.ctx.console =
        [Print.text Msg.start_scan, Print.text Msg.writing_to_file,
          Print.text (Msg.scanning (toInt32 p.start_freq) (toInt32 p.stop_freq)
            (toInt32 p.step_freq) (freq_nb p))] ++
        (List.range ((p.stop_freq - p.start_freq) / p.step_freq + 1)).flatMap
          (fun j => summary_line (env.beyond j) p.rssi_pts hist (p.start_freq + j * p.step_freq)) ++
        [Print.text Msg.info_disconnected, Print.text Msg.exiting] ∧
      ∃ pre, res.ctx.events.map Event.op =
        pre ++ [Op.fpga_reg_w FpgaReg.SOFT_RESET 1, Op.fpga_reg_w FpgaReg.SOFT_RESET 0,
          Op.fpga_disconnect] := by
  have hnb := freq_nb_of_le p h2 h3
  have hn : (freq_nb p).toNat = (p.stop_freq - p.start_freq) / p.step_freq + 1 := by
    rw [hnb]; exact Int.toNat_ofNat _
  have hc := hT.connect
  have hd := hT.disconnect
  have hw := hT.fpga_w
  simp only [LGW_REG_SUCCESS] at hw
  simp only [main, fpga_connect, fpga_w_or, fpga_w, fpga_disconnect, hc, hd, hw, hopen,
    int_lor_zero_zero, LGW_REG_SUCCESS, hn]
  rw [if_neg (by decide), if_neg (by decide), if_neg (by decide)]
  simp only [Ctx.print]
  generalize hS : (Scan.mk (0 : Int) _ ([] : List (List Int)) : Scan σ) = S
  have hSx : S.x = 0 := by rw [← hS]
  have hSlog : S.log = [] := by rw [← hS]
  have hScon : S.ctx.console = [Print.text Msg.start_scan, Print.text Msg.writing_to_file,
      Print.text (Msg.scanning (toInt32 p.start_freq) (toInt32 p.stop_freq)
        (toInt32 p.step_freq) (freq_nb p))] := by rw [← hS]; rfl
  obtain ⟨s1, hs1, hx1, hlog1, hcon1, ev1, hev1⟩ :=
    scan_loop_ok T hist hT p env hfuel ((p.stop_freq - p.start_freq) / p.step_freq + 1) 0 S hSx
  rw [hs1]
  simp only
  rw [if_neg (by decide)]
  refine ⟨_, rfl, rfl, hnb, ?_, ?_, ?_⟩
  · simp only [hlog1, hSlog, List.nil_append, Option.some.injEq]
    apply List.map_congr_left
    intro j hj
    rw [List.mem_range] at hj
    obtain ⟨hf, hle⟩ := freq_at_of_le p h2 h3 j (by omega)
    rw [Nat.zero_add, hf, reduce_row_eq _ _ _ _ hle]
  · have hflat : ((List.range ((p.stop_freq - p.start_freq) / p.step_freq + 1)).flatMap fun i =>
        [Print.freq (toInt32 (freq_at p (0 + i)))] ++
            (reduce (env.beyond (0 + i)) p.rssi_pts hist (freq_at p (0 + i))).out ++
          [Print.newline]) =
        (List.range ((p.stop_freq - p.start_freq) / p.step_freq + 1)).flatMap
          (fun j => summary_line (env.beyond j) p.rssi_pts hist (p.start_freq + j * p.step_freq)) := by
      apply List.flatMap_congr
      intro j hj
      rw [List.mem_range] at hj
      obtain ⟨hf, hle⟩ := freq_at_of_le p h2 h3 j (by omega)
      rw [Nat.zero_add, hf, toInt32_small _ (by unfold MAX_FREQ at hle; omega)]
      rfl
    show s1.ctx.console ++ _ ++ _ = _
    rw [hcon1, hScon, hflat]
    simp only [List.append_assoc, List.cons_append, List.nil_append]
  · exact ⟨s1.ctx.events.map Event.op, by simp⟩

/-- Witness of C1: the sweep 868, 869, 870 MHz over the stub transport. -/
theorem end_to_end_witness :
    (Succeeds (stubT hist100) hist100 ∧ sweep3.stop_freq ≤ MAX_FREQ ∧
      sweep3.start_freq ≤ sweep3.stop_freq ∧ MIN_STEP_FREQ ≤ sweep3.step_freq ∧
      env0.fopen_ok = true ∧ 1 ≤ env0.fuel) ∧
    ∃ res, main (stubT hist100) sweep3 env0 () = some res ∧ res.ret = EXIT_SUCCESS ∧
      freq_nb sweep3 = 3 ∧
      res.log = some [csv_row hist100 868000000, csv_row hist100 869000000,
        csv_row hist100 870000000] :=
  ⟨⟨stubT_succeeds hist100, by decide, by decide, by decide, rfl, by decide⟩,
    (end_to_end (stubT hist100) hist100 sweep3 env0 () (stubT_succeeds hist100)
      (by decide) (by decide) (by decide) rfl (by decide)).imp
      (fun _ h => ⟨h.1, h.2.1, h.2.2.1, h.2.2.2.1⟩)⟩


/-- C2. For `start_freq`, `stop_freq` in the band with `start_freq ≤ stop_freq`
and `step_freq > 0`: `freq_nb = floor((stop_freq - start_freq) / step_freq) + 1`,
the `j`-th frequency is `start_freq + j*step_freq` without 32-bit wrap-around
(and is at most `stop_freq`), and the last one is `≤ stop_freq` and
`> stop_freq - step_freq`. -/
theorem freq_plan (p : Params)
    (h1 : MIN_FREQ ≤ p.start_freq) (h2 : p.stop_freq ≤ MAX_FREQ)
    (h3 : p.start_freq ≤ p.stop_freq) (h4 : 0 < p.step_freq) :
    freq_nb p = ((p.stop_freq - p.start_freq) / p.step_freq : Nat) + 1 ∧
    (∀ j : Nat, (j : Int) < freq_nb p →
      freq_at p j = p.start_freq + j * p.step_freq ∧
      p.start_freq + j * p.step_freq < 4294967296 ∧
      p.start_freq + j * p.step_freq ≤ p.stop_freq) ∧
    freq_at p (freq_nb p - 1).toNat ≤ p.stop_freq ∧
    ((p.stop_freq : Int) - (p.step_freq : Int) < (freq_at p (freq_nb p - 1).toNat : Int)) := by
  unfold MIN_FREQ at h1
  unfold MAX_FREQ at h2
  have hs : sub32 p.stop_freq p.start_freq = p.stop_freq - p.start_freq :=
    sub32_le _ _ (by omega) h3
  have hq : (p.stop_freq - p.start_freq) / p.step_freq ≤ p.stop_freq - p.start_freq :=
    Nat.div_le_self _ _
  have hnb : freq_nb p = ((p.stop_freq - p.start_freq) / p.step_freq : Nat) + 1 := by
    unfold freq_nb
    rw [hs, toInt32_small _ (by omega)]
  have hj : ∀ j : Nat, (j : Int) < freq_nb p →
      freq_at p j = p.start_freq + j * p.step_freq ∧
      p.start_freq + j * p.step_freq < 4294967296 ∧
      p.start_freq + j * p.step_freq ≤ p.stop_freq := by
    intro j hj
    rw [hnb] at hj
    have hjq : j ≤ (p.stop_freq - p.start_freq) / p.step_freq := by omega
    have hm : j * p.step_freq ≤ p.stop_freq - p.start_freq :=
      le_trans (Nat.mul_le_mul_right _ hjq) (Nat.div_mul_le_self _ _)
    refine ⟨?_, by omega, by omega⟩
    unfold freq_at
    omega
  have e : (freq_nb p - 1).toNat = (p.stop_freq - p.start_freq) / p.step_freq := by
    rw [hnb, add_sub_cancel_right]; exact Int.toNat_ofNat _
  have hl := hj ((p.stop_freq - p.start_freq) / p.step_freq) (by rw [hnb]; omega)
  have hlt := Nat.lt_div_mul_add (a := p.stop_freq - p.start_freq) h4
  rw [e, hl.1]
  generalize (p.stop_freq - p.start_freq) / p.step_freq * p.step_freq = m at hl hlt
  refine ⟨hnb, hj, by omega, by omega⟩

/-- Witness of C2: the sweep 868 MHz, 869 MHz, 870 MHz. -/
theorem freq_plan_witness :
    (MIN_FREQ ≤ sweep3.start_freq ∧ sweep3.stop_freq ≤ MAX_FREQ ∧
      sweep3.start_freq ≤ sweep3.stop_freq ∧ 0 < sweep3.step_freq) ∧
    freq_nb sweep3 = ((sweep3.stop_freq - sweep3.start_freq) / sweep3.step_freq : Nat) + 1 :=
  ⟨by decide, (freq_plan sweep3 (by decide) (by decide) (by decide) (by decide)).1⟩


/-- C3. For every `freq ≤ MAX_FREQ` (in particular every frequency of the band),
once the version check has passed, `setup_sx1272` writes three bytes
`b6, b7, b8` to the registers 6, 7, 8 right after the three mode-reset writes;
`(b6<<16)|(b7<<8)|b8` is `floor(freq * 2^19 / 32000000)`, which fits in 24 bits,
and multiplied back by `32000000 / 2^19` in exact rational arithmetic it is at
most `freq` and less than `32000000 / 2^19` below it. -/
theorem pll_round_trip (T : Transport σ) (freq : Nat) (c : Ctx σ)
    (hhi : freq ≤ MAX_FREQ)
    (hcode : (T.lgw_sx1272_reg_r 0x42 c.st).1.1 = LGW_REG_SUCCESS)
    (hval : (T.lgw_sx1272_reg_r 0x42 c.st).1.2 % 256 = 0x22) :
    ∃ b6 b7 b8 rest, b6 < 256 ∧ b7 < 256 ∧ b8 < 256 ∧
      (setup_sx1272 T freq c).2.events.map Event.op =
        c.events.map Event.op ++
          [Op.sx1272_reg_r 0x42, Op.sx1272_reg_w 0x01 0x00, Op.sx1272_reg_w 0x01 0x80,
           Op.sx1272_reg_w 0x01 0x81, Op.sx1272_reg_w 6 b6, Op.sx1272_reg_w 7 b7,
           Op.sx1272_reg_w 8 b8] ++ rest ∧
      ((b6 <<< 16) ||| (b7 <<< 8) ||| b8) = freq * 2 ^ 19 / 32000000 ∧
      freq * 2 ^ 19 / 32000000 < 2 ^ 24 ∧
      ((((b6 <<< 16) ||| (b7 <<< 8) ||| b8 : Nat) : ℚ) * 32000000 / 2 ^ 19 ≤ (freq : ℚ)) ∧
      ((freq : ℚ) - (((b6 <<< 16) ||| (b7 <<< 8) ||| b8 : Nat) : ℚ) * 32000000 / 2 ^ 19
        < 32000000 / 2 ^ 19) := by
  obtain ⟨hfr, hlt⟩ := freq_reg_eq freq hhi
  have hrec := bytes_recombine (freq_reg freq) hlt
  have e : (0xFF : Nat) = 2 ^ 8 - 1 := by norm_num
  have hb6 : (freq_reg freq >>> 16) &&& 0xFF < 256 := by
    rw [e, Nat.and_pow_two_sub_one_eq_mod]; exact Nat.mod_lt _ (by norm_num)
  have hb7 : (freq_reg freq >>> 8) &&& 0xFF < 256 := by
    rw [e, Nat.and_pow_two_sub_one_eq_mod]; exact Nat.mod_lt _ (by norm_num)
  have hb8 : freq_reg freq &&& 0xFF < 256 := by
    rw [e, Nat.and_pow_two_sub_one_eq_mod]; exact Nat.mod_lt _ (by norm_num)
  have hq := pll_quantization freq
  have hev : ∃ rest, (setup_sx1272 T freq c).2.events.map Event.op =
        c.events.map Event.op ++
          [Op.sx1272_reg_r 0x42, Op.sx1272_reg_w 0x01 0x00, Op.sx1272_reg_w 0x01 0x80,
           Op.sx1272_reg_w 0x01 0x81, Op.sx1272_reg_w 6 ((freq_reg freq >>> 16) &&& 0xFF),
           Op.sx1272_reg_w 7 ((freq_reg freq >>> 8) &&& 0xFF),
           Op.sx1272_reg_w 8 (freq_reg freq &&& 0xFF)] ++ rest := by
    simp only [setup_sx1272, sx_w_or, sx_w, sx_r, Ctx.print, LGW_REG_SUCCESS] at hcode ⊢
    rw [if_neg (by simp [hcode]), if_neg (by simp [hval])]
    split_ifs <;>
    · simp only [List.map_append, List.append_assoc, Nat.mod_eq_of_lt hb6, Nat.mod_eq_of_lt hb7,
        Nat.mod_eq_of_lt hb8]
      exact ⟨_, by simp; rfl⟩
  obtain ⟨rest, hrest⟩ := hev
  refine ⟨(freq_reg freq >>> 16) &&& 0xFF, (freq_reg freq >>> 8) &&& 0xFF,
    freq_reg freq &&& 0xFF, rest, hb6, hb7, hb8, hrest, ?_, ?_, ?_, ?_⟩
  · rw [hrec, hfr]; norm_num
  · have := hlt; rw [hfr] at this; norm_num; exact this
  · rw [hrec, hfr]; exact hq.1
  · rw [hrec, hfr]; exact hq.2

/-- Witness of C3: `freq = 868100000` over the stub transport. -/
theorem pll_round_trip_witness :
    868100000 ≤ MAX_FREQ ∧
    ∃ b6 b7 b8 rest, b6 < 256 ∧ b7 < 256 ∧ b8 < 256 ∧
      (setup_sx1272 (stubT hist100) 868100000 ctx0).2.events.map Event.op =
        ctx0.events.map Event.op ++
          [Op.sx1272_reg_r 0x42, Op.sx1272_reg_w 0x01 0x00, Op.sx1272_reg_w 0x01 0x80,
           Op.sx1272_reg_w 0x01 0x81, Op.sx1272_reg_w 6 b6, Op.sx1272_reg_w 7 b7,
           Op.sx1272_reg_w 8 b8] ++ rest ∧
      ((b6 <<< 16) ||| (b7 <<< 8) ||| b8) = 868100000 * 2 ^ 19 / 32000000 ∧
      868100000 * 2 ^ 19 / 32000000 < 2 ^ 24 ∧
      ((((b6 <<< 16) ||| (b7 <<< 8) ||| b8 : Nat) : ℚ) * 32000000 / 2 ^ 19 ≤ ((868100000 : Nat) : ℚ)) ∧
      (((868100000 : Nat) : ℚ) - (((b6 <<< 16) ||| (b7 <<< 8) ||| b8 : Nat) : ℚ) * 32000000 / 2 ^ 19
        < 32000000 / 2 ^ 19) :=
  ⟨by decide, pll_round_trip (stubT hist100) 868100000 ctx0 (by decide) rfl rfl⟩

/-- C8. Let the transport, asked the fifteen calls of `setup_ops` one after the
other from the current state, give the answers `A`. Then `setup_sx1272` returns
`EXIT_SUCCESS` exactly when the version read answers success with `0x22`, every
register write (three mode resets, three PLL bytes, six modem-configuration
writes, the continuous-receive command) answers success, and the final mode
read answers success with `0x85`; a successful call has issued exactly the
fifteen calls. When the version read fails or returns another value, the call
returns `EXIT_FAILURE` and the version read is the only call issued: no
register write. When the version check passes and one of the twelve writes
before the continuous-receive command fails, the call returns `EXIT_FAILURE`
after exactly these thirteen calls; when they all succeed, all fifteen calls
are issued. The result is always `EXIT_SUCCESS` or `EXIT_FAILURE`. -/
theorem setup_sx1272_success_iff (T : Transport σ) (freq : Nat) (c : Ctx σ) :
    (answers T (setup_ops freq) c.st).map Event.op = setup_ops freq ∧
    ((setup_sx1272 T freq c).1 = EXIT_SUCCESS ↔
      ((answers T (setup_ops freq) c.st).head? =
          some ⟨Op.sx1272_reg_r 0x42, LGW_REG_SUCCESS, 0x22⟩ ∧
       (∀ e ∈ answers T (setup_ops freq) c.st, e.op.isWrite = true → e.code = LGW_REG_SUCCESS) ∧
       (answers T (setup_ops freq) c.st).getLast? =
          some ⟨Op.sx1272_reg_r 0x01, LGW_REG_SUCCESS, 0x85⟩)) ∧
    ((setup_sx1272 T freq c).1 = EXIT_SUCCESS →
      (setup_sx1272 T freq c).2.events = c.events ++ answers T (setup_ops freq) c.st) ∧
    ((answers T (setup_ops freq) c.st).head? ≠
        some ⟨Op.sx1272_reg_r 0x42, LGW_REG_SUCCESS, 0x22⟩ →
      (setup_sx1272 T freq c).1 = EXIT_FAILURE ∧
      (setup_sx1272 T freq c).2.events = c.events ++ (answers T (setup_ops freq) c.st).take 1) ∧
    ((answers T (setup_ops freq) c.st).head? =
        some ⟨Op.sx1272_reg_r 0x42, LGW_REG_SUCCESS, 0x22⟩ →
      (∃ e ∈ (answers T (setup_ops freq) c.st).take 13, e.code ≠ LGW_REG_SUCCESS) →
      (setup_sx1272 T freq c).1 = EXIT_FAILURE ∧
      (setup_sx1272 T freq c).2.events = c.events ++ (answers T (setup_ops freq) c.st).take 13) ∧
    ((answers T (setup_ops freq) c.st).head? =
        some ⟨Op.sx1272_reg_r 0x42, LGW_REG_SUCCESS, 0x22⟩ →
      (∀ e ∈ (answers T (setup_ops freq) c.st).take 13, e.code = LGW_REG_SUCCESS) →
      (setup_sx1272 T freq c).2.events = c.events ++ answers T (setup_ops freq) c.st) ∧
    ((setup_sx1272 T freq c).1 = EXIT_SUCCESS ∨ (setup_sx1272 T freq c).1 = EXIT_FAILURE) := by
  have b16 := byte_shift16 (freq_reg freq)
  have b8 := byte_shift8 (freq_reg freq)
  have b0 := byte_shift0 (freq_reg freq)
  simp only [setup_sx1272, sx_w_or, sx_w, sx_r, Ctx.print, LGW_REG_SUCCESS, EXIT_SUCCESS,
    EXIT_FAILURE, answers, setup_ops, call, b16, b8, b0, Nat.reduceMod, Nat.reduceOr,
    Nat.reduceShiftLeft, Nat.zero_shiftLeft, Nat.zero_mod, Nat.zero_or, Nat.or_zero]
  generalize T.lgw_sx1272_reg_r 66 c.st = r0
  generalize T.lgw_sx1272_reg_w 1 0 r0.2 = w1
  generalize T.lgw_sx1272_reg_w 1 128 w1.2 = w2
  generalize T.lgw_sx1272_reg_w 1 129 w2.2 = w3
  generalize T.lgw_sx1272_reg_w 6 (freq_reg freq / 65536 % 256) w3.2 = w4
  generalize T.lgw_sx1272_reg_w 7 (freq_reg freq / 256 % 256) w4.2 = w5
  generalize T.lgw_sx1272_reg_w 8 (freq_reg freq % 256) w5.2 = w6
  generalize T.lgw_sx1272_reg_w 29 0 w6.2 = w7
  generalize T.lgw_sx1272_reg_w 80 1 w7.2 = w8
  generalize T.lgw_sx1272_reg_w 30 116 w8.2 = w9
  generalize T.lgw_sx1272_reg_w 12 35 w9.2 = w10
  generalize T.lgw_sx1272_reg_w 104 7 w10.2 = w11
  generalize T.lgw_sx1272_reg_w 105 96 w11.2 = w12
  generalize T.lgw_sx1272_reg_w 1 133 w12.2 = w13
  generalize T.lgw_sx1272_reg_r 1 w13.2 = r14
  obtain ⟨⟨c0, v0⟩, s0⟩ := r0
  obtain ⟨a1, s1⟩ := w1
  obtain ⟨a2, s2⟩ := w2
  obtain ⟨a3, s3⟩ := w3
  obtain ⟨a4, s4⟩ := w4
  obtain ⟨a5, s5⟩ := w5
  obtain ⟨a6, s6⟩ := w6
  obtain ⟨a7, s7⟩ := w7
  obtain ⟨a8, s8⟩ := w8
  obtain ⟨a9, s9⟩ := w9
  obtain ⟨a10, s10⟩ := w10
  obtain ⟨a11, s11⟩ := w11
  obtain ⟨a12, s12⟩ := w12
  obtain ⟨a13, s13⟩ := w13
  obtain ⟨⟨c14, v14⟩, s14⟩ := r14
  simp only [List.map_cons, List.map_nil, true_and, List.head?_cons, Option.some.injEq,
    Event.mk.injEq, List.take_succ_cons, List.take_zero, List.append_assoc, List.cons_append,
    List.nil_append, List.mem_cons, List.mem_singleton, List.not_mem_nil, or_false,
    forall_eq_or_imp, forall_eq, exists_eq_or_imp, exists_eq_left, Op.isWrite,
    List.getLast?_cons_cons, List.getLast?_singleton, ne_eq, not_and, Bool.false_eq_true,
    false_implies, forall_const]
  split_ifs with h1 h2 h3 h4 <;>
    simp only [Decidable.not_not, int_lor_eq_zero, not_or, not_and] at * <;>
    refine ⟨?_, ?_, ?_, ?_, ?_, ?_⟩ <;>
    simp only [one_ne_zero, false_iff, false_implies, true_implies, and_true, true_and,
      not_and, and_imp, implies_true, zero_ne_one, true_or, or_true, true_iff, not_false_eq_true,
      List.append_cancel_left_eq, List.cons.injEq, reduceCtorEq, and_false, imp_false] <;>
    first
    | done
    | tauto

/-- Witness of C8: over the stub transport every answer is good, so the call at
868.1 MHz returns `EXIT_SUCCESS` after exactly the fifteen calls. -/
theorem setup_sx1272_success_iff_witness :
    (setup_sx1272 (stubT hist100) 868100000 ctx0).1 = EXIT_SUCCESS ∧
    (setup_sx1272 (stubT hist100) 868100000 ctx0).2.events =
      ctx0.events ++ answers (stubT hist100) (setup_ops 868100000) ctx0.st :=
  have hs : (setup_sx1272 (stubT hist100) 868100000 ctx0).1 = EXIT_SUCCESS :=
    (setup_sx1272_success_iff (stubT hist100) 868100000 ctx0).2.1.mpr ⟨rfl, by decide, rfl⟩
  ⟨hs, (setup_sx1272_success_iff (stubT hist100) 868100000 ctx0).2.2.1 hs⟩

/-- C6. For every frequency up to `MAX_FREQ` (every in-band frequency) and
every 512-byte buffer, the row of the log is the frequency followed by the
256 pairs (rssi, count) in ascending bin order, 513 fields in all: the rssi
field of pair `i` is `i - 135` and its count field is
`buf[2i] + 256*buf[2i+1]`. -/
theorem csv_row_layout (beyond : Nat → Nat → ℚ) (pts : Nat) (buf : List Nat) (freq : Nat)
    (hhi : freq ≤ MAX_FREQ)
    (hlen : buf.length = 512) (hbytes : ∀ b ∈ buf, b < 256) :
    (reduce beyond pts buf freq).row =
        (freq : Int) :: (List.range 256).flatMap
          (fun i => [(i : Int) - 135, ((buf.getD (2 * i) 0 + 256 * buf.getD (2 * i + 1) 0 : Nat) : Int)]) ∧
    (reduce beyond pts buf freq).row.length = 513 ∧
    ∀ i, i < 256 →
      (reduce beyond pts buf freq).row.get? (2 * i + 1) = some ((i : Int) - 135) ∧
      (reduce beyond pts buf freq).row.get? (2 * i + 2) =
        some ((buf.getD (2 * i) 0 + 256 * buf.getD (2 * i + 1) 0 : Nat) : Int) := by
  have hrow : (reduce beyond pts buf freq).row =
      (freq : Int) :: (List.range 256).flatMap
        (fun i => [(i : Int) - 135, ((buf.getD (2 * i) 0 + 256 * buf.getD (2 * i + 1) 0 : Nat) : Int)]) := by
    unfold reduce RSSI_RANGE
    rw [reduce_upto_row, toInt32_small freq (by unfold MAX_FREQ at hhi; omega)]
    congr 1
    apply List.flatMap_congr
    intro i hi
    rw [List.mem_range] at hi
    rw [rssi_histo_eq, byte_at_of_lt buf _ (by omega) hbytes,
      byte_at_of_lt buf _ (by omega) hbytes]
    simp [RSSI_OFFSET]
    rfl
  rw [hrow]
  refine ⟨rfl, ?_, ?_⟩
  · rw [List.length_cons, pairs_length]
  · intro i hi
    have := pairs_get (fun i : Nat => (i : Int) - 135)
      (fun i => ((buf.getD (2 * i) 0 + 256 * buf.getD (2 * i + 1) 0 : Nat) : Int)) 256 i hi
    simpa [List.get?_eq_getElem?] using this


/-- Witness of C6: all zeros except bin 100 = 65535 at 868 MHz; after the
frequency, the field at position `2*100` is the label `-35` and the field at
position `2*100+1` is the count `65535`. -/
theorem csv_row_layout_witness :
    (868000000 ≤ MAX_FREQ ∧ hist100.length = 512 ∧ ∀ b ∈ hist100, b < 256) ∧
    (reduce (fun _ _ => 0) 65535 hist100 868000000).row.get? (2 * 100 + 1) = some (-35) ∧
    (reduce (fun _ _ => 0) 65535 hist100 868000000).row.get? (2 * 100 + 2) = some 65535 :=
  ⟨⟨by decide, hist100_length, hist100_bytes⟩,
    (csv_row_layout (fun _ _ => 0) 65535 hist100 868000000 (by decide) hist100_length
      hist100_bytes).2.2 100 (by decide)⟩

/-- C4, amended. With `rssi_pts = 65535`, for every 256-bin histogram of 16-bit
counts that sums to 65535, the reducer emits at least one and at most four
tokens, for the thresholds 0.1, 0.3, 0.5, 0.8 in this order (threshold indices
0, 1, 2, ... without a gap), in strictly ascending bin order; the threshold 1.0
is never exceeded, and the table is only read at the indices 0..4. -/
theorem tokens_at_full_scale (beyond : Nat → Nat → ℚ) (buf : List Nat) (freq : Nat)
    (hsum : cumu buf RSSI_RANGE = 65535) :
    1 ≤ (tokens (reduce beyond 65535 buf freq).out).length ∧
    (tokens (reduce beyond 65535 buf freq).out).length ≤ 4 ∧
    (tokens (reduce beyond 65535 buf freq).out).map Prod.fst =
      List.range (tokens (reduce beyond 65535 buf freq).out).length ∧
    ((tokens (reduce beyond 65535 buf freq).out).map Prod.snd).Pairwise (· < ·) ∧
    (∀ x ∈ (reduce beyond 65535 buf freq).idx, x ≤ 4) := by
  have hle : ∀ n, (reduce_upto beyond 65535 buf freq n).k ≤ 4 := fun n =>
    reduce_upto_k_le_four beyond 65535 buf freq n (fun i _ => by
      have := cumu16_lt buf (i + 1); omega)
  have hlen := tokens_length_reduce_upto beyond 65535 buf freq RSSI_RANGE
  refine ⟨?_, ?_, ?_, ?_, ?_⟩
  · unfold reduce
    rw [hlen]
    by_contra hk
    have hk0 : (reduce_upto beyond 65535 buf freq RSSI_RANGE).k = 0 := by omega
    have h255 : (reduce_upto beyond 65535 buf freq 255).k = 0 := by
      have := reduce_upto_k_mono beyond 65535 buf freq (m := 255) (n := RSSI_RANGE) (by decide)
      omega
    have hc : cumu16 buf (255 + 1) = 65535 := by
      have : cumu buf (255 + 1) = 65535 := hsum
      unfold cumu16; rw [this]
    have hstep := reduce_upto_k_of_crossing beyond 65535 buf freq 255 (by
      rw [h255, hc, thresh_read_lt beyond 255 0 (1/10) rfl]; norm_num)
    have : (reduce_upto beyond 65535 buf freq (255 + 1)).k = 0 := hk0
    omega
  · unfold reduce; rw [hlen]; exact hle _
  · unfold reduce; rw [hlen]; exact tokens_fst_reduce_upto beyond 65535 buf freq RSSI_RANGE
  · exact tokens_snd_reduce_upto beyond 65535 buf freq RSSI_RANGE
  · intro x hx
    unfold reduce at hx
    rw [reduce_upto_idx, List.mem_map] at hx
    obtain ⟨i, _, rfl⟩ := hx
    exact hle i


/-- Witness of C4 (amended): the histogram with all 65535 samples in bin 100. -/
theorem tokens_at_full_scale_witness :
    cumu hist100 RSSI_RANGE = 65535 ∧
    (tokens (reduce (fun _ _ => 0) 65535 hist100 868000000).out).length ≤ 4 :=
  ⟨hist100_sum, (tokens_at_full_scale (fun _ _ => 0) hist100 868000000 hist100_sum).2.1⟩


set_option maxRecDepth 100000 in
/-- Counterexample to C4 as stated: with all 65535 samples in bin 100 the
histogram sums to the sample count, and the reducer emits the four tokens at
the bins 100, 101, 102, 103, not five. -/
theorem five_tokens_counterexample :
    cumu hist100 RSSI_RANGE = 65535 ∧
    tokens (reduce (fun _ _ => 0) 65535 hist100 868000000).out =
      [(0, 100), (1, 101), (2, 102), (3, 103)] ∧
    (tokens (reduce (fun _ _ => 0) 65535 hist100 868000000).out).length ≠ 5 := by
  decide!

/-- C5, amended. For every histogram and sample count, a token for threshold `t`
(index `k`) at bin `b` satisfies: the 16-bit running sum of bins `0..b`, hence
also their cumulative sum, strictly exceeds `t * rssi_pts`; for `k > 0` the
token of the previous threshold stands at an earlier bin; and the running sum
does not exceed `t * rssi_pts` at any earlier bin that comes after the bin of
that previous token (at any earlier bin at all when `k = 0`). -/
theorem token_first_tested_crossing (beyond : Nat → Nat → ℚ) (pts : Nat) (buf : List Nat)
    (freq k b : Nat) (t : ℚ)
    (hmem : (k, b) ∈ tokens (reduce beyond pts buf freq).out)
    (ht : rssi_thresh.get? k = some t) :
    (cumu16 buf (b + 1) : ℚ) > t * (pts : ℚ) ∧
    (cumu buf (b + 1) : ℚ) > t * (pts : ℚ) ∧
    (0 < k → ∃ b0, b0 < b ∧ (k - 1, b0) ∈ tokens (reduce beyond pts buf freq).out) ∧
    ∀ b1, b1 < b →
      (k = 0 ∨ ∃ b0, b0 < b1 ∧ (k - 1, b0) ∈ tokens (reduce beyond pts buf freq).out) →
      ¬ ((cumu16 buf (b1 + 1) : ℚ) > t * (pts : ℚ)) := by
  unfold reduce at hmem ⊢
  obtain ⟨hb, hkb, hcross⟩ := (mem_tokens_reduce_upto beyond pts buf freq RSSI_RANGE k b).mp hmem
  rw [thresh_read_lt beyond b k t ht] at hcross
  have hle : (cumu16 buf (b + 1) : ℚ) ≤ (cumu buf (b + 1) : ℚ) := by
    exact_mod_cast cumu16_le_cumu buf (b + 1)
  refine ⟨hcross, lt_of_lt_of_le hcross hle, ?_, ?_⟩
  · intro hpos
    have hlt : k - 1 < (reduce_upto beyond pts buf freq RSSI_RANGE).k := by
      have := reduce_upto_k_mono beyond pts buf freq (m := b) (n := RSSI_RANGE) (by omega)
      omega
    obtain ⟨b0, hb0⟩ := prev_token_exists beyond pts buf freq RSSI_RANGE (k - 1) hlt
    refine ⟨b0, ?_, hb0⟩
    obtain ⟨_, hk0, _⟩ := (mem_tokens_reduce_upto beyond pts buf freq RSSI_RANGE (k - 1) b0).mp hb0
    by_contra hge
    have := reduce_upto_k_mono beyond pts buf freq (m := b) (n := b0) (by omega)
    omega
  · intro b1 hb1 hafter
    have hk1 : (reduce_upto beyond pts buf freq b1).k = (reduce_upto beyond pts buf freq b).k := by
      have hmono := reduce_upto_k_mono beyond pts buf freq (m := b1) (n := b) (by omega)
      rcases hafter with h0 | ⟨b0, hb0, hm0⟩
      · omega
      · obtain ⟨_, hk0, hc0⟩ :=
          (mem_tokens_reduce_upto beyond pts buf freq RSSI_RANGE (k - 1) b0).mp hm0
        rw [hk0] at hc0
        have hs := reduce_upto_k_of_crossing beyond pts buf freq b0 hc0
        have hm2 := reduce_upto_k_mono beyond pts buf freq (m := b0 + 1) (n := b1) (by omega)
        rcases Nat.eq_zero_or_pos k with hz | hp
        · omega
        · omega
    have := no_crossing_before beyond pts buf freq b b1 hb1 hk1
    rw [← hkb, thresh_read_lt beyond b1 k t ht] at this
    exact this


/-- Witness of C5 (amended): the token of threshold 0.3 at bin 101 for the
histogram with all samples in bin 100. -/
theorem token_first_tested_crossing_witness :
    ((1, 101) ∈ tokens (reduce (fun _ _ => 0) 65535 hist100 868000000).out ∧
      rssi_thresh.get? 1 = some (3/10)) ∧
    (cumu16 hist100 (101 + 1) : ℚ) > (3/10) * ((65535 : Nat) : ℚ) :=
  ⟨⟨hist100_token, rfl⟩,
    (token_first_tested_crossing (fun _ _ => 0) 65535 hist100 868000000 1 101 (3/10)
      hist100_token rfl).1⟩


set_option maxRecDepth 100000 in
/-- Counterexample to C5 as stated: with all 65535 samples in bin 100, the token
of threshold 0.3 stands at bin 101, although the cumulative sum of bins 0..100
already exceeds `0.3 * 65535`. -/
theorem first_crossing_counterexample :
    ¬ (∀ kb ∈ tokens (reduce (fun _ _ => 0) 65535 hist100 868000000).out,
        first_crossing 65535 hist100 kb.1 kb.2) := by
  intro h
  obtain ⟨t, ht, _, hno⟩ := h (1, 101) hist100_token
  have ht3 : t = 3/10 := by
    have : rssi_thresh.get? 1 = some (3/10) := rfl
    rw [this] at ht
    exact (Option.some.inj ht).symm
  subst ht3
  have hc : cumu hist100 (100 + 1) = 65535 := by decide
  apply hno 100 (by decide)
  rw [hc]
  norm_num

/-- C9, evaluated at the failing input: sample count 1 and the histogram with
one sample in each of the bins 0 to 4. Whatever lies beyond the table, at bin 5
the expression `rssi_thresh[k]` is evaluated with `k = 5`, an index the
five-entry table does not have: the threshold index does not stay within 0..4. -/
theorem thresh_index_leaves_table (beyond : Nat → Nat → ℚ) (freq : Nat) :
    (reduce beyond 1 hist5 freq).idx.get? 5 = some 5 ∧ rssi_thresh.get? 5 = none ∧
    ¬ (∀ x ∈ (reduce beyond 1 hist5 freq).idx, x ≤ 4) := by
  have h := reduce_idx_get beyond 1 hist5 freq 5 (by decide)
  rw [hist5_k] at h
  refine ⟨h, rfl, ?_⟩
  intro hall
  have := hall 5 (List.get?_mem h)
  omega


set_option maxRecDepth 1000000 in
/-- C7, evaluated at the failing input: on the transport `failT`, where the
start command, the stop command, the read-address reset and the burst read of
every acquisition report failure, the sweep of three frequencies still returns
`EXIT_SUCCESS` and writes three rows; the twelve failed calls are listed. -/
theorem acquisition_failure_ignored :
    (main (failT hist100) sweep3 env0 ()).map
        (fun r => (r.ret, r.log.map List.length,
          (r.ctx.events.filter (fun e => decide (e.code ≠ LGW_REG_SUCCESS))).map Event.op)) =
      some (EXIT_SUCCESS, some 3,
        [Op.fpga_reg_w FpgaReg.FPGA_CTRL 1, Op.fpga_reg_w FpgaReg.FPGA_CTRL 0,
         Op.fpga_reg_w FpgaReg.HISTO_RAM_ADDR 0, Op.fpga_reg_rb FpgaReg.HISTO_RAM_DATA 512,
         Op.fpga_reg_w FpgaReg.FPGA_CTRL 1, Op.fpga_reg_w FpgaReg.FPGA_CTRL 0,
         Op.fpga_reg_w FpgaReg.HISTO_RAM_ADDR 0, Op.fpga_reg_rb FpgaReg.HISTO_RAM_DATA 512,
         Op.fpga_reg_w FpgaReg.FPGA_CTRL 1, Op.fpga_reg_w FpgaReg.FPGA_CTRL 0,
         Op.fpga_reg_w FpgaReg.HISTO_RAM_ADDR 0, Op.fpga_reg_rb FpgaReg.HISTO_RAM_DATA 512]) := by
  decide!


set_option maxRecDepth 1000000 in
/-- C10, evaluated at the failing input: the option `-f 900:0.005:800` passes
the validation and leaves `start_freq = 900000000`, `step_freq = 5000`,
`stop_freq = 800000000`; then `freq_nb = 838994`, the frequency of step 1
already lies above `stop_freq`, and the frequency of step 20001 is
`1000005000`, above `MAX_FREQ`. Run over the stub transport, the first two
passes of the main loop write the rows of 900000000 Hz and 900005000 Hz, and
pass 20001 writes the row of 1000005000 Hz. -/
theorem scan_leaves_band :
    parse_f (900, 1/200, 800) =
      some (descending.start_freq, descending.step_freq, descending.stop_freq) ∧
    freq_nb descending = 838994 ∧
    ((20001 : Nat) : Int) < freq_nb descending ∧
    freq_at descending 20001 = 1000005000 ∧
    MAX_FREQ < freq_at descending 20001 ∧
    descending.stop_freq < freq_at descending 1 ∧
    (scan_loop (stubT hist100) descending env0 2 0 { x := 0, ctx := ctx0, log := [] }).map
        (fun r => (r.1, r.2.log.map List.head?)) =
      some (true, [some 900000000, some 900005000]) ∧
    (scan_loop (stubT hist100) descending env0 1 20001 { x := 0, ctx := ctx0, log := [] }).map
        (fun r => (r.1, r.2.log.map List.head?)) =
      some (true, [some 1000005000]) := by
  refine ⟨?_, ?_, ?_, ?_, ?_, ?_, ?_, ?_⟩
  · decide!
  · decide
  · decide
  · decide
  · decide
  · decide
  · decide!
  · decide!

end SpectralScan
